import Mathlib

/-!
# Verification of the remote-scan engine (Stripe / ClickHouse connectors)

Shallow embedding of `wrappers/src/fdw/stripe_fdw/stripe_fdw.rs` and
`wrappers/src/fdw/clickhouse_fdw/clickhouse_fdw.rs`.

Modelling conventions:
* JSON response bodies arrive already parsed (`serde_json` deserialization is
  an external collaborator); a body is a `JValue`.
* `f64` payloads are never computed with by the connectors, only stored and
  retrieved, so they are modelled by the opaque token type `FloatVal`.
* `pgrx` timestamps are produced from epoch seconds via `to_timestamp` and are
  modelled by their epoch-second value.
* `report_error` raises a PostgreSQL `ERROR` (pgrx `ereport`), which aborts the
  statement; it is modelled as `Except.error`.  Code following a
  `report_error` call in the source is unreachable and is not modelled.
* Rust panics (`unwrap` on `None`, out-of-bounds indexing) are modelled as
  `Except.error FdwErr.panic` (or `Option.none` for pure parsing helpers).
* `serde_json::Map` key order: the model keeps insertion order (`BTreeMap`
  sorts keys); no settled statement depends on the key order of a JSON object.
-/

/-- Opaque stand-in for an `f64` payload.  The connectors never do arithmetic
on floats: they only move them between a JSON number and a `Cell::F64`, so a
float is identified either by its bit pattern or by the integer JSON number it
was converted from. -/
inductive FloatVal where
  | lit (bits : Nat)
  | ofInt (i : Int)
deriving DecidableEq, Repr

/-- Parsed JSON value (`serde_json::Value`).  Integer and floating JSON
numbers are distinguished, as `serde_json::Number` does. -/
inductive JValue where
  | null
  | bool (b : Bool)
  | int (i : Int)
  | float (f : FloatVal)
  | str (s : String)
  | arr (elems : List JValue)
  | obj (fields : List (String × JValue))

namespace JValue

/-- `Value::as_object` -/
def asObject : JValue → Option (List (String × JValue))
  | .obj fields => some fields
  | _ => none

/-- `Value::as_array` -/
def asArr : JValue → Option (List JValue)
  | .arr elems => some elems
  | _ => none

/-- `Value::as_str` -/
def asStr : JValue → Option String
  | .str s => some s
  | _ => none

/-- `Value::as_bool` -/
def asBool : JValue → Option Bool
  | .bool b => some b
  | _ => none

/-- `Value::as_i64` (integer JSON numbers are assumed to fit in `i64`) -/
def asI64 : JValue → Option Int
  | .int i => some i
  | _ => none

/-- `Value::as_f64`: floating numbers are returned as-is, integer numbers are
converted to the float they denote. -/
def asF64 : JValue → Option FloatVal
  | .float f => some f
  | .int i => some (FloatVal.ofInt i)
  | _ => none

end JValue

/-- `serde_json::Map::get` (first binding of the key). -/
def jGet (fields : List (String × JValue)) (key : String) : Option JValue :=
  (fields.find? (fun p => p.1 = key)).map (fun p => p.2)

/-- `serde_json::Map::insert`: replace the value of an existing key in place,
otherwise append the new binding. -/
def mapInsert (m : List (String × JValue)) (k : String) (v : JValue) :
    List (String × JValue) :=
  if m.any (fun p => p.1 = k) then
    m.map (fun p => if p.1 = k then (k, v) else p)
  else
    m ++ [(k, v)]

/-- `serde_json::Map::append`: move every binding of the other map in. -/
def mapAppend (m other : List (String × JValue)) : List (String × JValue) :=
  other.foldl (fun acc p => mapInsert acc p.1 p.2) m

/-- `supabase_wrappers::interface::Cell`: one typed value slot.
Timestamps and dates are modelled by epoch seconds (see header). -/
inductive Cell where
  | Bool (b : Bool)
  | I16 (i : Int)
  | I32 (i : Int)
  | I64 (i : Int)
  | F32 (f : FloatVal)
  | F64 (f : FloatVal)
  | String (s : String)
  | Date (epochSeconds : Int)
  | Timestamp (epochSeconds : Int)
  | Json (v : JValue)

/-- `supabase_wrappers::interface::Column`: only the column name is consulted
by these two connectors, so the type oid is not modelled. -/
structure Column where
  name : String
deriving DecidableEq, Repr

/-- `supabase_wrappers::interface::Row`: ordered (column name, optional cell)
pairs. -/
structure Row where
  cols : List (String × Option Cell)

/-- `Row::push` -/
def Row.push (r : Row) (name : String) (cell : Option Cell) : Row :=
  ⟨r.cols ++ [(name, cell)]⟩

/-- `supabase_wrappers::interface::Value`: a scalar cell or an array of
cells. -/
inductive Value where
  | Cell (c : Cell)
  | Array (cs : List Cell)

/-- `supabase_wrappers::interface::Qual` -/
structure Qual where
  field : String
  operator : String
  value : Value
  use_or : Bool

/-- Modelled from the spec (the `Sort` interface type lives in
`supabase-wrappers`, outside `src/`): field name plus ascending/descending
plus nulls-first/last. -/
structure SortKey where
  field : String
  ascending : Bool
  nullsFirst : Bool
deriving DecidableEq, Repr

/-- `supabase_wrappers::interface::Limit`: offset + count.  Both are `i64` in
the source and non-negative per the spec, so they are modelled as `Nat`. -/
structure Limit where
  count : Nat
  offset : Nat
deriving DecidableEq, Repr

/-- A request URL: path plus query pairs.  Percent-encoding is not modelled
(no settled statement depends on it). -/
structure Url where
  path : String
  query : List (String × String)
deriving DecidableEq, Repr

/-- `Url::query_pairs_mut().append_pair` -/
def Url.appendPair (u : Url) (k v : String) : Url :=
  ⟨u.path, u.query ++ [(k, v)]⟩

/-- Fatal failures: every `report_error` site, plus Rust panics. -/
inductive FdwErr where
  | tableNotFound (obj : String)
  | requestFailed
  | invalidDataType
  | unsupportedDataType (t : String)
  | invalidQueryParameter
  | unmatchedParam (p : String)
  | connectionFailed
  | queryFailed
  | panic
deriving DecidableEq, Repr

/-- Modelled from the spec: `require_option` (in `supabase-wrappers`, outside
`src/`) looks a required option up; per the spec a missing required option is
a *ConfigurationError*, "recovered by producing an empty scan rather than
raising", so the lookup simply returns `none` when absent. -/
def requireOption (name : String) (options : List (String × String)) :
    Option String :=
  (options.find? (fun p => p.1 = name)).map (fun p => p.2)

/-! ## Stripe connector (`stripe_fdw.rs`) -/

/-- The JSON-to-`Cell` coercion selected by the schema type tag
(`stripe_fdw.rs` lines 95-106).  The `"json"` arm mirrors the source
(`v.as_i64().map(Cell::Json)`); it is unused, as no Stripe object schema
declares a `"json"` normal column.  `to_timestamp` on epoch seconds is
modelled as the epoch-second value itself. -/
def coerceCell (colType : String) (v : JValue) : Option Cell :=
  match colType with
  | "bool" => (v.asBool).map Cell.Bool
  | "i64" => (v.asI64).map Cell.I64
  | "f64" => (v.asF64).map Cell.F64
  | "json" => (v.asI64).map (fun i => Cell.Json (JValue.int i))
  | "string" => (v.asStr).map Cell.String
  | "timestamp" => (v.asI64).map Cell.Timestamp
  | _ => none

/-- The per-object column extraction of `body_to_rows` (the `for tgt_col in
tgt_cols` loop, lines 89-113): a requested column found in the schema is
coerced from the payload field of the same name; a column named `attrs`
receives the whole object as a JSON cell; other columns are not pushed. -/
def extractCells (normal_cols : List (String × String)) (obj : JValue) :
    List Column → List (String × Option Cell)
  | [] => []
  | tgt :: rest =>
    match normal_cols.find? (fun p => p.1 = tgt.name) with
    | some (col_name, col_type) =>
      (col_name, (obj.asObject.bind (fun o => jGet o col_name)).bind
        (coerceCell col_type)) :: extractCells normal_cols obj rest
    | none =>
      if tgt.name = "attrs" then
        ("attrs", some (Cell.Json obj)) :: extractCells normal_cols obj rest
      else
        extractCells normal_cols obj rest

/-- One balance sub-object: `value[bal_type][0]` with `balance_type`
inserted (`body_to_rows` lines 53-65; the `unwrap`s make a malformed balance
body a panic, hence `Option`). -/
def balanceObj (value : JValue) (balType : String) :
    Option (List (String × JValue)) :=
  ((((value.asObject.bind (fun o => jGet o balType)).bind
      JValue.asArr).bind (fun a => a[0]?)).bind JValue.asObject).map
    (fun o => mapInsert o "balance_type" (JValue.str balType))

/-- `body_to_rows` (`stripe_fdw.rs` lines 27-134) on an already-parsed
response body.  Returns the rows, the derived cursor (last object's `id`) and
the parsed `has_more` flag; `none` models a Rust panic on an unexpected
shape. -/
def body_to_rows (value : JValue) (normal_cols : List (String × String))
    (tgt_cols : List Column) :
    Option (List Row × Option String × Option Bool) := do
  let is_list := (((value.asObject.bind (fun o => jGet o "object")).bind
    JValue.asStr).map (fun v => v == "list")).getD false
  let is_balance := (((value.asObject.bind (fun o => jGet o "object")).bind
    JValue.asStr).map (fun v => v == "balance")).getD false
  let objs ← (if is_list then
      (value.asObject.bind (fun o => jGet o "data")).bind JValue.asArr
    else if is_balance then do
      let a ← balanceObj value "available"
      let p ← balanceObj value "pending"
      pure [JValue.obj a, JValue.obj p]
    else
      (value.asObject).map (fun o => [JValue.obj o]))
  let result := objs.map (fun obj => Row.mk (extractCells normal_cols obj tgt_cols))
  let cursor := ((objs.getLast?.bind JValue.asObject).bind
    (fun o => jGet o "id")).bind JValue.asStr
  let has_more := (value.asObject.bind (fun o => jGet o "has_more")).bind
    JValue.asBool
  pure (result, cursor, has_more)

/-- The encoding loop of `row_to_body` (lines 139-174), folding the row's
present cells into a JSON map.  The `F64` arm goes through
`Decimal::from`/serde in the source; it is modelled as storing the float
unchanged.  A cell type with no arm (`I16`, `I32`, `F32`, `Date`,
`Timestamp`) hits `report_error(ERRCODE_FDW_INVALID_DATA_TYPE, ..)`. -/
def rowToBodyAux : List (String × Option Cell) → List (String × JValue) →
    Except FdwErr (List (String × JValue))
  | [], m => .ok m
  | (_, none) :: rest, m => rowToBodyAux rest m
  | (name, some cell) :: rest, m =>
    match cell with
    | .Bool v => rowToBodyAux rest (mapInsert m name (JValue.bool v))
    | .I64 v => rowToBodyAux rest (mapInsert m name (JValue.int v))
    | .F64 v => rowToBodyAux rest (mapInsert m name (JValue.float v))
    | .String v => rowToBodyAux rest (mapInsert m name (JValue.str v))
    | .Json v =>
      if name = "attrs" then
        match v.asObject with
        | some o => rowToBodyAux rest (mapAppend m o)
        | none => rowToBodyAux rest m
      else
        rowToBodyAux rest (mapInsert m name v)
    | _ => .error .invalidDataType

/-- `row_to_body` (`stripe_fdw.rs` lines 136-177). -/
def row_to_body (row : Row) : Except FdwErr JValue :=
  (rowToBodyAux row.cols []).map JValue.obj

/-- `pushdown_quals` (`stripe_fdw.rs` lines 179-228).  The single
`id`-equality fast path rewrites the URL into a point lookup; otherwise
equality quals over the object's pushable fields become query pairs, and
pagination parameters are appended except for the `balance` object. -/
def pushdown_quals (url : Url) (obj : String) (quals : List Qual)
    (fields : List String) (page_size : Int) (cursor : Option String) : Url :=
  let fastPath : Option Url :=
    match quals with
    | [qual] =>
      if qual.field = "id" ∧ qual.operator = "=" ∧ qual.use_or = false then
        match qual.value with
        | .Cell (.String id) => some ⟨url.path ++ "/" ++ id, []⟩
        | _ => none
      else none
    | _ => none
  match fastPath with
  | some u => u
  | none =>
    let url1 := quals.foldl (fun u q =>
      fields.foldl (fun u f =>
        if q.field = f ∧ q.operator = "=" ∧ q.use_or = false then
          match q.value with
          | .Cell (.Bool b) => u.appendPair f (toString b)
          | .Cell (.String s) => u.appendPair f s
          | _ => u
        else u) u) url
    if obj ≠ "balance" then
      let url2 := url1.appendPair "limit" (toString page_size)
      match cursor with
      | some c => url2.appendPair "starting_after" c
      | none => url2
    else url1

/-- The pushable-field table of `StripeFdw::build_url` (lines 290-335);
`none` is the `report_error(ERRCODE_FDW_TABLE_NOT_FOUND, ..)` arm. -/
def stripeFields : String → Option (List String)
  | "balance" => some []
  | "balance_transactions" => some ["type"]
  | "charges" => some ["customer"]
  | "customers" => some ["email"]
  | "disputes" => some ["charge", "payment_intent"]
  | "events" => some ["type"]
  | "files" => some ["purpose"]
  | "file_links" => some []
  | "mandates" => some []
  | "payment_intents" => some ["customer"]
  | "setup_attempts" => some ["setup_intent"]
  | "setup_intents" => some ["customer", "payment_method"]
  | "payouts" => some ["status"]
  | "refunds" => some ["charge", "payment_intent"]
  | "tokens" => some []
  | "products" => some ["active"]
  | "prices" => some ["active", "currency", "product", "type"]
  | "coupons" => some []
  | "promotion_codes" => some []
  | "tax_codes" => some []
  | "tax_rates" => some ["active"]
  | "shipping_rates" => some ["active", "created", "currency"]
  | "checkout/sessions" => some ["customer", "payment_intent", "subscription"]
  | "invoices" => some ["customer", "status", "subscription"]
  | "subscriptions" => some ["customer", "price", "status"]
  | "accounts" => some []
  | "topups" => some ["status"]
  | "transfers" => some ["destination"]
  | _ => none

/-- `StripeFdw::build_url` (lines 279-339).  `base_url.join(obj)` on the
slash-terminated base URL appends the object path and clears the query. -/
def StripeFdw.build_url (base_url : Url) (obj : String) (quals : List Qual)
    (page_size : Int) (cursor : Option String) : Except FdwErr Url :=
  let url : Url := ⟨base_url.path ++ obj, []⟩
  match stripeFields obj with
  | none => .error (.tableNotFound obj)
  | some fields => .ok (pushdown_quals url obj quals fields page_size cursor)

/-- The default Stripe base URL (`StripeFdw::new`, line 733). -/
def defaultStripeBaseUrl : Url := ⟨"https://api.stripe.com/v1/", []⟩

/-- `StripeFdw::resp_to_rows` (`stripe_fdw.rs` lines 342-716): the per-object
field schema, dispatched on the object name.  A parse panic inside
`body_to_rows` is surfaced as `FdwErr.panic`; the unknown-object arm is the
`report_error(ERRCODE_FDW_TABLE_NOT_FOUND, ..)` default (unreachable from
`begin_scan`, which fails in `build_url` first). -/
def StripeFdw.resp_to_rows (obj : String) (value : JValue)
    (tgt_cols : List Column) :
    Except FdwErr (List Row × Option String × Option Bool) :=
  let run := fun (normal_cols : List (String × String)) =>
    match body_to_rows value normal_cols tgt_cols with
    | some r => Except.ok r
    | none => Except.error FdwErr.panic
  match obj with
  | "balance" => run [("balance_type", "string"), ("amount", "i64"),
      ("currency", "string")]
  | "balance_transactions" => run [("id", "string"), ("amount", "i64"),
      ("currency", "string"), ("description", "string"), ("fee", "i64"),
      ("net", "i64"), ("status", "string"), ("type", "string"),
      ("created", "timestamp")]
  | "charges" => run [("id", "string"), ("amount", "i64"),
      ("currency", "string"), ("customer", "string"),
      ("description", "string"), ("invoice", "string"),
      ("payment_intent", "string"), ("status", "string"),
      ("created", "timestamp")]
  | "customers" => run [("id", "string"), ("email", "string"),
      ("name", "string"), ("description", "string"), ("created", "timestamp")]
  | "disputes" => run [("id", "string"), ("amount", "i64"),
      ("currency", "string"), ("charge", "string"),
      ("payment_intent", "string"), ("reason", "string"),
      ("status", "string"), ("created", "timestamp")]
  | "events" => run [("id", "string"), ("type", "string"),
      ("api_version", "string"), ("created", "timestamp")]
  | "files" => run [("id", "string"), ("filename", "string"),
      ("purpose", "string"), ("title", "string"), ("size", "i64"),
      ("type", "string"), ("url", "string"), ("created", "timestamp"),
      ("expires_at", "timestamp")]
  | "file_links" => run [("id", "string"), ("file", "string"),
      ("url", "string"), ("created", "timestamp"), ("expired", "bool"),
      ("expires_at", "timestamp")]
  | "mandates" => run [("id", "string"), ("payment_method", "string"),
      ("status", "string"), ("type", "string")]
  | "payment_intents" => run [("id", "string"), ("customer", "string"),
      ("amount", "i64"), ("currency", "string"),
      ("payment_method", "string"), ("created", "timestamp")]
  | "payouts" => run [("id", "string"), ("amount", "i64"),
      ("currency", "string"), ("arrival_date", "timestamp"),
      ("description", "string"), ("statement_descriptor", "string"),
      ("status", "string"), ("created", "timestamp")]
  | "refunds" => run [("id", "string"), ("amount", "i64"),
      ("currency", "string"), ("charge", "string"),
      ("payment_intent", "string"), ("reason", "string"),
      ("status", "string"), ("created", "timestamp")]
  | "setup_attempts" => run [("id", "string"), ("application", "string"),
      ("customer", "string"), ("on_behalf_of", "string"),
      ("payment_method", "string"), ("setup_intent", "string"),
      ("status", "string"), ("usage", "string"), ("created", "timestamp")]
  | "setup_intents" => run [("id", "string"), ("client_secret", "string"),
      ("customer", "string"), ("description", "string"),
      ("payment_method", "string"), ("status", "string"),
      ("usage", "string"), ("created", "timestamp")]
  | "tokens" => run [("id", "string"), ("type", "string"),
      ("client_ip", "string"), ("used", "bool"), ("created", "timestamp")]
  | "products" => run [("id", "string"), ("name", "string"),
      ("active", "bool"), ("default_price", "string"),
      ("description", "string"), ("created", "timestamp"),
      ("updated", "timestamp")]
  | "prices" => run [("id", "string"), ("active", "bool"),
      ("currency", "string"), ("product", "string"), ("unit_amount", "i64"),
      ("type", "string"), ("created", "timestamp")]
  | "coupons" => run [("id", "string"), ("amount_off", "i64"),
      ("currency", "string"), ("duration", "string"),
      ("duration_in_months", "i64"), ("max_redemptions", "i64"),
      ("name", "string"), ("percent_off", "f64"), ("created", "timestamp")]
  | "promotion_codes" => run [("id", "string"), ("code", "string"),
      ("coupon", "string"), ("active", "bool"), ("created", "timestamp")]
  | "tax_codes" => run [("id", "string"), ("description", "string"),
      ("name", "string")]
  | "tax_rates" => run [("id", "string"), ("active", "bool"),
      ("country", "string"), ("description", "string"),
      ("display_name", "string"), ("inclusive", "bool"),
      ("percentage", "f64"), ("created", "timestamp")]
  | "shipping_rates" => run [("id", "string"), ("active", "bool"),
      ("display_name", "string"), ("amount", "string"), ("type", "string"),
      ("created", "timestamp")]
  | "checkout/sessions" => run [("id", "string"), ("customer", "string"),
      ("payment_intent", "string"), ("subscription", "string"),
      ("created", "timestamp")]
  | "invoices" => run [("id", "string"), ("customer", "string"),
      ("subscription", "string"), ("status", "string"), ("total", "i64"),
      ("currency", "string"), ("period_start", "timestamp"),
      ("period_end", "timestamp")]
  | "subscriptions" => run [("id", "string"), ("customer", "string"),
      ("currency", "string"), ("current_period_start", "timestamp"),
      ("current_period_end", "timestamp")]
  | "accounts" => run [("id", "string"), ("business_type", "string"),
      ("country", "string"), ("email", "string"), ("type", "string"),
      ("created", "timestamp")]
  | "topups" => run [("id", "string"), ("amount", "i64"),
      ("currency", "string"), ("description", "string"),
      ("status", "string"), ("created", "timestamp")]
  | "transfers" => run [("id", "string"), ("amount", "i64"),
      ("currency", "string"), ("description", "string"),
      ("destination", "string"), ("created", "timestamp")]
  | _ => .error (.tableNotFound obj)

/-- One remote answer to a Stripe GET: 404, another failure (a transport
error or a non-2xx status, both routed to `report_request_error!`), or a
2xx with a parsed body. -/
inductive StripeResp where
  | notFound
  | fail
  | ok (body : JValue)

/-- The state `begin_scan` leaves behind, plus ghost instrumentation:
`requests` counts transport sends (`inc_stats_request_cnt` sites), `trace`
records the rows parsed from each fetched page in order. -/
structure StripeScanState where
  requests : Nat
  trace : List (List Row)
  scanResult : Option (List Row)

/-- The `while page < page_cnt` pagination loop of `StripeFdw::begin_scan`
(lines 783-833), as a recursion on the remaining page budget.  Bodies are
fetched through `remote`; a 404 breaks with the rows so far; a failure
aborts; otherwise the parsed page is appended and the loop continues only
when `has_more` is present and true, advancing the cursor to the parsed
`starting_after`. -/
def stripeFetchLoop (remote : Url → StripeResp) (baseUrl : Url) (obj : String)
    (quals : List Qual) (columns : List Column) :
    Nat → Option String → List (List Row) → List Row → Nat →
    Except FdwErr (Nat × List (List Row) × List Row)
  | 0, _, trace, acc, reqs => .ok (reqs, trace, acc)
  | fuel + 1, cursor, trace, acc, reqs =>
    match StripeFdw.build_url baseUrl obj quals 100 cursor with
    | .error e => .error e
    | .ok url =>
      match remote url with
      | .notFound => .ok (reqs + 1, trace, acc)
      | .fail => .error .requestFailed
      | .ok body =>
        match StripeFdw.resp_to_rows obj body columns with
        | .error e => .error e
        | .ok (rows, starting_after, has_more) =>
          if rows.isEmpty then .ok (reqs + 1, trace ++ [rows], acc)
          else
            match has_more with
            | some true =>
              stripeFetchLoop remote baseUrl obj quals columns fuel
                starting_after (trace ++ [rows]) (acc ++ rows) (reqs + 1)
            | some false => .ok (reqs + 1, trace ++ [rows], acc ++ rows)
            | none => .ok (reqs + 1, trace ++ [rows], acc ++ rows)

/-- `i64::MAX`, the page budget when no limit is given (line 776). -/
def i64Max : Nat := 9223372036854775807

/-- The page ceiling `(limit.offset + limit.count) / page_size + 1` with the
Stripe page size of 100 (lines 768-773). -/
def stripePageCnt (l : Limit) : Nat := (l.offset + l.count) / 100 + 1

/-- `StripeFdw::begin_scan` (lines 753-842).  `client` is `None` when no
credential was configured; `remote` answers each GET.  A missing `object`
option, an absent client, or `limit.count == 0` return before any transport
call, leaving `scan_result` unset. -/
def StripeFdw.begin_scan (client : Option Unit) (remote : Url → StripeResp)
    (baseUrl : Url) (quals : List Qual) (columns : List Column)
    (_sorts : List SortKey) (limit : Option Limit)
    (options : List (String × String)) : Except FdwErr StripeScanState :=
  match requireOption "object" options with
  | none => .ok ⟨0, [], none⟩
  | some obj =>
    match client with
    | none => .ok ⟨0, [], none⟩
    | some _ =>
      let run := fun (pageCnt : Nat) =>
        (stripeFetchLoop remote baseUrl obj quals columns pageCnt
            none [] [] 0).map
          (fun r => StripeScanState.mk r.1 r.2.1 (some r.2.2))
      match limit with
      | some l => if l.count = 0 then .ok ⟨0, [], none⟩ else run (stripePageCnt l)
      | none => run i64Max

/-- `StripeFdw::iter_scan` (lines 844-854): drain one row from the front of
`scan_result`; `(none, _)` is end-of-data. -/
def StripeFdw.iter_scan : Option (List Row) → Option Row × Option (List Row)
  | some (r :: rest) => (some r, some rest)
  | some [] => (none, some [])
  | none => (none, none)

/-- Repeated `iter_scan` calls: the row sequence delivered to the caller. -/
def stripeDrain : Nat → Option (List Row) → List Row
  | 0, _ => []
  | n + 1, st =>
    match StripeFdw.iter_scan st with
    | (some r, st1) => r :: stripeDrain n st1
    | (none, _) => []

/-! ## ClickHouse connector (`clickhouse_fdw.rs`) -/

/-- One value of a ClickHouse result block, tagged with its wire `SqlType`
(`clickhouse_rs::types`).  Date and DateTime values are modelled by the epoch
quantity the source converts them to.  `unsupported` stands for every
`SqlType` outside the arms of `field_to_cell`. -/
inductive ChVal where
  | uint8 (v : Nat)
  | int16 (v : Int)
  | uint16 (v : Nat)
  | int32 (v : Int)
  | uint32 (v : Nat)
  | float32 (v : FloatVal)
  | float64 (v : FloatVal)
  | uint64 (v : Nat)
  | int64 (v : Int)
  | string (s : String)
  | date (epochSeconds : Int)
  | datetime (epochSeconds : Int)
  | unsupported (typeName : String)

/-- `u64 as i64` (two's-complement reinterpretation, line 46). -/
def u64AsI64 (n : Nat) : Int := ((n : Int) + 2 ^ 63) % 2 ^ 64 - 2 ^ 63

/-- `field_to_cell` (`clickhouse_fdw.rs` lines 12-76) on the value at column
`i` of one block row.  An out-of-range index is a Rust panic; an unsupported
`SqlType` hits `report_error(ERRCODE_FDW_INVALID_DATA_TYPE, ..)`. -/
def field_to_cell (srcRow : List ChVal) (i : Nat) : Except FdwErr Cell :=
  match srcRow[i]? with
  | none => .error .panic
  | some v =>
    match v with
    | .uint8 n => .ok (.Bool (n != 0))
    | .int16 n => .ok (.I16 n)
    | .uint16 n => .ok (.I32 (n : Int))
    | .int32 n => .ok (.I32 n)
    | .uint32 n => .ok (.I64 (n : Int))
    | .float32 f => .ok (.F32 f)
    | .float64 f => .ok (.F64 f)
    | .uint64 n => .ok (.I64 (u64AsI64 n))
    | .int64 n => .ok (.I64 n)
    | .string s => .ok (.String s)
    | .date d => .ok (.Date d)
    | .datetime t => .ok (.Timestamp t)
    | .unsupported t => .error (.unsupportedDataType t)

/-- A fetched ClickHouse block: named columns and rows of values. -/
structure ChBlock where
  colNames : List String
  rows : List (List ChVal)

/-- The per-row cell assembly of `ClickHouseFdw::iter_scan` (the
`for tgt_col in tgt_cols` loop, lines 286-306): a target column that is a
consumed template parameter is answered from the parameter's cell; otherwise
the block column of the same name is located (a missing column is an
`unwrap` panic) and converted. -/
def chConvCells (blk : ChBlock) (params : List Qual) (srcRow : List ChVal) :
    List Column → Except FdwErr (List (String × Option Cell))
  | [] => .ok []
  | tgt :: rest =>
    match params.find? (fun p => p.field = tgt.name) with
    | some param =>
      match param.value with
      | .Cell cell =>
        (chConvCells blk params srcRow rest).map
          (fun cs => (tgt.name, some cell) :: cs)
      | .Array _ => chConvCells blk params srcRow rest
    | none =>
      match blk.colNames.findIdx? (fun c => c = tgt.name) with
      | none => .error .panic
      | some i =>
        match field_to_cell srcRow i with
        | .error e => .error e
        | .ok cell =>
          match blk.colNames[i]? with
          | none => .error .panic
          | some cn =>
            (chConvCells blk params srcRow rest).map
              (fun cs => (cn, some cell) :: cs)

/-- The scan-relevant fields of `ClickHouseFdw`. -/
structure ChScanState where
  table : String
  rowidCol : String
  tgtCols : List Column
  scanBlk : Option ChBlock
  rowIdx : Nat
  params : List Qual

/-- `ClickHouseFdw::iter_scan` (lines 281-312): read the block row at
`row_idx`, assemble the requested cells, and advance `row_idx`; past the last
row (or with no block) report end-of-data. -/
def ClickHouseFdw.iter_scan (st : ChScanState) :
    Except FdwErr (Option Row × ChScanState) :=
  match st.scanBlk with
  | none => .ok (none, st)
  | some blk =>
    match blk.rows[st.rowIdx]? with
    | none => .ok (none, st)
    | some srcRow =>
      match chConvCells blk st.params srcRow st.tgtCols with
      | .error e => .error e
      | .ok cells => .ok (some ⟨cells⟩, { st with rowIdx := st.rowIdx + 1 })

/-- Repeated ClickHouse `iter_scan` calls: the row sequence delivered. -/
def chDrain : Nat → ChScanState → Except FdwErr (List Row)
  | 0, _ => .ok []
  | n + 1, st =>
    match ClickHouseFdw.iter_scan st with
    | .error e => .error e
    | .ok (none, _) => .ok []
    | .ok (some r, st1) => (chDrain n st1).map (fun rs => r :: rs)

/-- Converting every row of a block, in order (the reference against which
the drain sequence is compared). -/
def chConvAll (blk : ChBlock) (tgts : List Column) (params : List Qual) :
    List (List ChVal) → Except FdwErr (List Row)
  | [] => .ok []
  | r :: rs =>
    match chConvCells blk params r tgts with
    | .error e => .error e
    | .ok cells => (chConvAll blk tgts params rs).map (fun out => Row.mk cells :: out)

/-- Modelled from the spec (the `Cell` `Display` impl lives in
`supabase-wrappers`, outside `src/`): the textual value of a cell, as
substituted into query text. -/
def cellToString : Cell → String
  | .Bool b => toString b
  | .I16 i => toString i
  | .I32 i => toString i
  | .I64 i => toString i
  | .F32 (.lit n) => toString n
  | .F32 (.ofInt i) => toString i
  | .F64 (.lit n) => toString n
  | .F64 (.ofInt i) => toString i
  | .String s => s
  | .Date d => toString d
  | .Timestamp t => toString t
  | .Json _ => "json"

/-- Modelled from the spec (the `Qual::deparse` helper lives in
`supabase-wrappers`, outside `src/`): render one predicate as
`field operator value`. -/
def qualDeparse (q : Qual) : String :=
  q.field ++ " " ++ q.operator ++ " " ++
    match q.value with
    | .Cell c => cellToString c
    | .Array cs => "(" ++ String.intercalate ", " (cs.map cellToString) ++ ")"

/-- Modelled from the spec (the `Sort::deparse` helper lives in
`supabase-wrappers`, outside `src/`): render one sort key. -/
def sortDeparse (s : SortKey) : String :=
  s.field ++ (if s.ascending then "" else " desc") ++
    (if s.nullsFirst then " nulls first" else "")

/-- `\w` of the template-parameter regex. -/
def isWordChar (c : Char) : Bool := c.isAlphanum || c == '_'

/-- Dropping a matched run never lengthens a list (termination helper). -/
theorem dropWhileLenLe (p : Char → Bool) (l : List Char) :
    (l.dropWhile p).length ≤ l.length := by
  have h := congrArg List.length (List.takeWhile_append_dropWhile p l)
  simp only [List.length_append] at h
  omega

/-- `table.starts_with('(')`. -/
def strStartsParen (s : String) : Bool :=
  match s.data with
  | '(' :: _ => true
  | _ => false

/-- The `Regex::replace_all` over the parameterized table template
(`ClickHouseFdw::deparse`, lines 120-147): each `$\x7bword\x7d` match is
replaced by the textual value of the first qual whose field equals the word,
which is also pushed onto `self.params`; an unmatched parameter or an
array-valued qual hits `report_error(ERRCODE_FDW_ERROR, ..)`.  Text outside
matches is copied (no later match can start inside a failed candidate, since
the pattern starts with `$`). -/
def substFuel (quals : List Qual) : Nat → List Char →
    Except FdwErr (List Char × List Qual)
  | _, [] => .ok ([], [])
  | 0, _ :: _ => .ok ([], [])
  | fuel + 1, c :: rest =>
    if c = '$' ∧ rest.head? = some '{' then
      let rest0 := rest.tail
      let ws := rest0.takeWhile isWordChar
      let rest1 := rest0.dropWhile isWordChar
      if ws.isEmpty then
        (substFuel quals fuel rest0).map
          (fun r => ('$' :: '{' :: r.1, r.2))
      else
        match rest1 with
        | '}' :: rest2 =>
          let param := String.mk ws
          match quals.find? (fun q => q.field = param) with
          | some qual =>
            match qual.value with
            | .Cell cell =>
              (substFuel quals fuel rest2).map
                (fun r => ((cellToString cell).data ++ r.1, qual :: r.2))
            | .Array _ => .error .invalidQueryParameter
          | none => .error (.unmatchedParam param)
        | _ =>
          (substFuel quals fuel rest1).map
            (fun r => ('$' :: '{' :: ws ++ r.1, r.2))
    else
      (substFuel quals fuel rest).map (fun r => (c :: r.1, r.2))

/-- `Regex::replace_all` over the whole template: every recursive step of
`substFuel` consumes at least one character, so the input length is always
enough fuel. -/
def substTemplateAux (quals : List Qual) (cs : List Char) :
    Except FdwErr (List Char × List Qual) :=
  substFuel quals cs.length cs

/-- The select target-column list of `ClickHouseFdw::deparse` (lines
152-161): all requested columns except the ones consumed as template
parameters. -/
def chTgts (params : List Qual) (columns : List Column) : String :=
  if columns.isEmpty then "*"
  else
    String.intercalate ", "
      ((columns.filter (fun c => ¬ params.any (fun p => p.field = c.name))).map
        (fun c => c.name))

/-- The WHERE clause of `ClickHouseFdw::deparse` (lines 165-176): the
conjunction of all quals whose field was not consumed as a template
parameter; empty input or an all-consumed list yields no clause. -/
def chWhere (params : List Qual) (quals : List Qual) : String :=
  if quals.isEmpty then ""
  else
    let cond := String.intercalate " and "
      ((quals.filter (fun q => ¬ params.any (fun p => p.field = q.field))).map
        qualDeparse)
    if cond = "" then "" else " where " ++ cond

/-- The ORDER BY clause of `ClickHouseFdw::deparse` (lines 179-186). -/
def chOrder (sorts : List SortKey) : String :=
  if sorts.isEmpty then ""
  else " order by " ++ String.intercalate ", " (sorts.map sortDeparse)

/-- The LIMIT clause of `ClickHouseFdw::deparse` (lines 188-195): only
`offset + count` is pushed down; the offset itself is applied locally by the
host. -/
def chLimit (limit : Option Limit) : String :=
  match limit with
  | some l => " limit " ++ toString (l.offset + l.count)
  | none => ""

/-- `ClickHouseFdw::deparse` (lines 113-198).  `table0` is `self.table`,
`params0` the `self.params` carried into the call (empty for a fresh
session); the returned pair is the SQL text and the updated `self.params`. -/
def ClickHouseFdw.deparse (table0 : String) (params0 : List Qual)
    (quals : List Qual) (columns : List Column) (sorts : List SortKey)
    (limit : Option Limit) : Except FdwErr (String × List Qual) :=
  let tbl : Except FdwErr (String × List Qual) :=
    if strStartsParen table0 then
      (substTemplateAux quals table0.data).map
        (fun r => (String.mk r.1, params0 ++ r.2))
    else .ok (table0, params0)
  match tbl with
  | .error e => .error e
  | .ok (table, params) =>
    .ok ("select " ++ chTgts params columns ++ " from " ++ table ++
      chWhere params quals ++ chOrder sorts ++ chLimit limit, params)

/-- The result of a ClickHouse `begin_scan`, plus ghost instrumentation:
`connects` counts `Pool::get_handle` connection attempts, `queries` the SQL
texts sent to the remote. -/
structure ChBeginOutcome where
  connects : Nat
  queries : List String
  st : ChScanState

/-- `ClickHouseFdw::begin_scan` (lines 234-279).  `connOk` tells whether
`create_client`'s `pool.get_handle()` succeeds (its failure hits
`report_error(ERRCODE_FDW_UNABLE_TO_ESTABLISH_CONNECTION, ..)`); `remote`
answers a query with a block, `none` being the `Err` arm
(`report_error(ERRCODE_FDW_ERROR, "query failed..")`).  A missing `table`
option returns with nothing fetched. -/
def ClickHouseFdw.begin_scan (connOk : Bool)
    (remote : String → Option ChBlock) (self0 : ChScanState)
    (quals : List Qual) (columns : List Column) (sorts : List SortKey)
    (limit : Option Limit) (options : List (String × String)) :
    Except FdwErr ChBeginOutcome :=
  if connOk = false then .error .connectionFailed
  else
    match requireOption "table" options with
    | none => .ok ⟨1, [], self0⟩
    | some table =>
      let st1 : ChScanState :=
        { self0 with table := table, tgtCols := columns, rowIdx := 0 }
      match ClickHouseFdw.deparse table st1.params quals columns sorts limit with
      | .error e => .error e
      | .ok (sql, params) =>
        match remote sql with
        | some blk =>
          .ok ⟨1, [sql], { st1 with params := params, scanBlk := some blk }⟩
        | none => .error .queryFailed

/-! ## Claims -/

/-- C3 counterexample: the claim promises a point lookup for *every* scalar
(non-array) single `id` equality qual, but `pushdown_quals` takes the
point-lookup fast path only for a **string** cell.  With the scalar value
`Cell::I64(42)` on object `accounts` the produced request keeps the
collection path and carries query parameters — a filtered-list request, not
a point lookup with an empty query string. -/
theorem C3_point_lookup_counterexample :
    StripeFdw.build_url defaultStripeBaseUrl "accounts"
        [⟨"id", "=", .Cell (.I64 42), false⟩] 100 none =
      .ok ⟨"https://api.stripe.com/v1/accounts", [("limit", "100")]⟩ ∧
    ([("limit", "100")] : List (String × String)) ≠ [] := by
  exact ⟨rfl, by decide⟩

/-- C3 (amended): for every planner invocation whose quals list contains
exactly one qual with field `id`, operator `=`, a scalar **string** value,
and not OR-grouped, the produced request is a point lookup: the object path
with the id value appended and an empty query string; in particular
`acct_123` on object `accounts` yields `.../accounts/acct_123` with no query
parameters. -/
theorem C3_point_lookup_amended :
    (∀ (url : Url) (obj : String) (fields : List String) (pageSize : Int)
        (cursor : Option String) (id : String),
      pushdown_quals url obj [⟨"id", "=", .Cell (.String id), false⟩] fields
          pageSize cursor = ⟨url.path ++ "/" ++ id, []⟩) ∧
    StripeFdw.build_url defaultStripeBaseUrl "accounts"
        [⟨"id", "=", .Cell (.String "acct_123"), false⟩] 100 none =
      .ok ⟨"https://api.stripe.com/v1/accounts/acct_123", []⟩ := by
  constructor
  · intro url obj fields pageSize cursor id
    simp [pushdown_quals]
  · rfl

/-- Loop step: a 404 answer breaks out of the pagination loop with the rows
accumulated so far, after exactly one more request. -/
theorem stripeFetchLoop_notFound (remote : Url → StripeResp) (baseUrl : Url)
    (obj : String) (quals : List Qual) (columns : List Column) (fuel : Nat)
    (cursor : Option String) (trace : List (List Row)) (acc : List Row)
    (reqs : Nat) (url : Url)
    (hu : StripeFdw.build_url baseUrl obj quals 100 cursor = .ok url)
    (hr : remote url = .notFound) :
    stripeFetchLoop remote baseUrl obj quals columns (fuel + 1) cursor trace
      acc reqs = .ok (reqs + 1, trace, acc) := by
  simp [stripeFetchLoop, hu, hr]

/-- Loop step: a parsed page is appended to the buffer and the loop
continues only when `has_more` is present and true. -/
theorem stripeFetchLoop_page (remote : Url → StripeResp) (baseUrl : Url)
    (obj : String) (quals : List Qual) (columns : List Column) (fuel : Nat)
    (cursor : Option String) (trace : List (List Row)) (acc : List Row)
    (reqs : Nat) (url : Url) (body : JValue) (rows : List Row)
    (cur : Option String) (hm : Option Bool)
    (hu : StripeFdw.build_url baseUrl obj quals 100 cursor = .ok url)
    (hr : remote url = .ok body)
    (hp : StripeFdw.resp_to_rows obj body columns = .ok (rows, cur, hm)) :
    stripeFetchLoop remote baseUrl obj quals columns (fuel + 1) cursor trace
        acc reqs =
      if rows.isEmpty then .ok (reqs + 1, trace ++ [rows], acc)
      else
        match hm with
        | some true =>
          stripeFetchLoop remote baseUrl obj quals columns fuel cur
            (trace ++ [rows]) (acc ++ rows) (reqs + 1)
        | some false => .ok (reqs + 1, trace ++ [rows], acc ++ rows)
        | none => .ok (reqs + 1, trace ++ [rows], acc ++ rows) := by
  simp only [stripeFetchLoop, hu, hr, hp]
  cases hm with
  | none => rfl
  | some b => cases b <;> rfl

/-- `i64::MAX` in successor form, to step the no-limit pagination loop. -/
theorem i64Max_succ : i64Max = 9223372036854775806 + 1 := rfl

/-- C5: a remote 404 answer to a Stripe point lookup completes `begin_scan`
as a zero-row success: one request is made, zero rows are buffered
(`scan_result = Some(vec![])`), and no error is raised. -/
theorem C5_not_found_as_empty (client : Unit) (remote : Url → StripeResp)
    (baseUrl : Url) (quals : List Qual) (columns : List Column)
    (sorts : List SortKey) (limit : Option Limit)
    (options : List (String × String)) (obj id : String) (url : Url)
    (hopt : requireOption "object" options = some obj)
    (_hq : quals = [⟨"id", "=", .Cell (.String id), false⟩])
    (hl : limit = none ∨ ∃ l, limit = some l ∧ l.count ≠ 0)
    (hu : StripeFdw.build_url baseUrl obj quals 100 none = .ok url)
    (hr : remote url = .notFound) :
    StripeFdw.begin_scan (some client) remote baseUrl quals columns sorts
      limit options = .ok ⟨1, [], some []⟩ := by
  have step : ∀ fuel : Nat,
      stripeFetchLoop remote baseUrl obj quals columns (fuel + 1) none [] [] 0 =
        .ok (1, [], []) :=
    fun fuel => stripeFetchLoop_notFound remote baseUrl obj quals columns
      fuel none [] [] 0 url hu hr
  rcases hl with hl | ⟨l, hl, hc⟩
  · subst hl
    simp only [StripeFdw.begin_scan, hopt, i64Max_succ, step]
    rfl
  · subst hl
    simp only [StripeFdw.begin_scan, hopt, if_neg hc, stripePageCnt, step]
    rfl

/-- A remote that answers 404 to everything (C5 witness scenario). -/
def c5remote : Url → StripeResp := fun _ => .notFound

/-- C5 witness: the scenario evaluated at a concrete point lookup. -/
theorem C5_not_found_as_empty_witness :
    StripeFdw.begin_scan (some ()) c5remote defaultStripeBaseUrl
      [⟨"id", "=", .Cell (.String "acct_123"), false⟩] [] [] none
      [("object", "accounts")] = .ok ⟨1, [], some []⟩ :=
  C5_not_found_as_empty () c5remote defaultStripeBaseUrl
    [⟨"id", "=", .Cell (.String "acct_123"), false⟩] [] [] none
    [("object", "accounts")] "accounts" "acct_123"
    ⟨"https://api.stripe.com/v1/accounts/acct_123", []⟩
    rfl rfl (Or.inl rfl) rfl rfl

/-- Loop step, resolved for a page whose `has_more` is present and false:
the loop stops after this page with the page's rows buffered. -/
theorem stripeFetchLoop_hasMoreFalse (remote : Url → StripeResp)
    (baseUrl : Url) (obj : String) (quals : List Qual)
    (columns : List Column) (fuel : Nat) (cursor : Option String)
    (trace : List (List Row)) (acc : List Row) (reqs : Nat) (url : Url)
    (body : JValue) (rows : List Row) (cur : Option String)
    (hu : StripeFdw.build_url baseUrl obj quals 100 cursor = .ok url)
    (hr : remote url = .ok body)
    (hp : StripeFdw.resp_to_rows obj body columns = .ok (rows, cur, some false)) :
    stripeFetchLoop remote baseUrl obj quals columns (fuel + 1) cursor trace
      acc reqs = .ok (reqs + 1, trace ++ [rows], acc ++ rows) := by
  rw [stripeFetchLoop_page remote baseUrl obj quals columns fuel cursor trace
    acc reqs url body rows cur (some false) hu hr hp]
  by_cases he : rows.isEmpty
  · have hnil : rows = [] := by simpa [List.isEmpty_iff] using he
    subst hnil
    simp
  · simp [he]

/-- Loop step, resolved for a page whose body carries no `has_more` field at
all: the loop stops after this page with the page's rows buffered. -/
theorem stripeFetchLoop_noHasMore (remote : Url → StripeResp)
    (baseUrl : Url) (obj : String) (quals : List Qual)
    (columns : List Column) (fuel : Nat) (cursor : Option String)
    (trace : List (List Row)) (acc : List Row) (reqs : Nat) (url : Url)
    (body : JValue) (rows : List Row) (cur : Option String)
    (hu : StripeFdw.build_url baseUrl obj quals 100 cursor = .ok url)
    (hr : remote url = .ok body)
    (hp : StripeFdw.resp_to_rows obj body columns = .ok (rows, cur, none)) :
    stripeFetchLoop remote baseUrl obj quals columns (fuel + 1) cursor trace
      acc reqs = .ok (reqs + 1, trace ++ [rows], acc ++ rows) := by
  rw [stripeFetchLoop_page remote baseUrl obj quals columns fuel cursor trace
    acc reqs url body rows cur none hu hr hp]
  by_cases he : rows.isEmpty
  · have hnil : rows = [] := by simpa [List.isEmpty_iff] using he
    subst hnil
    simp
  · simp [he]

/-- Page 1 of the C4 scenario: 100 customer records, `has_more = true`. -/
def c4page1 : JValue :=
  .obj [("object", .str "list"),
    ("data", .arr ((List.range 100).map
      (fun i => JValue.obj [("id", JValue.str ("cus_" ++ toString i))]))),
    ("has_more", .bool true)]

/-- Page 2 of the C4 scenario: 5 customer records, `has_more = false`. -/
def c4page2 : JValue :=
  .obj [("object", .str "list"),
    ("data", .arr ((List.range 5).map
      (fun i => JValue.obj [("id", JValue.str ("cuz_" ++ toString i))]))),
    ("has_more", .bool false)]

/-- The C4 remote: the first request (no cursor) gets page 1; the follow-up
request carrying `starting_after` gets page 2. -/
def c4remote : Url → StripeResp := fun u =>
  if u.query.any (fun p => p.1 = "starting_after") then .ok c4page2
  else .ok c4page1

/-- The rows parsed from C4 page 1. -/
def c4rows1 : List Row :=
  (List.range 100).map
    (fun i => ⟨[("id", some (Cell.String ("cus_" ++ toString i)))]⟩)

/-- The rows parsed from C4 page 2. -/
def c4rows2 : List Row :=
  (List.range 5).map
    (fun i => ⟨[("id", some (Cell.String ("cuz_" ++ toString i)))]⟩)

/-- C4: a fetched page whose parsed `has_more` indicator is present and
false is the last page fetched: (1) at any point of the pagination loop such
a page ends the loop after being buffered; (2) if the first page carries
`has_more = false` the engine makes exactly one request; (3) in the
100-rows-then-5-rows scenario with no limit, exactly 2 pages are fetched and
105 rows are buffered. -/
theorem C4_has_more_false_last_page :
    (∀ (remote : Url → StripeResp) (baseUrl : Url) (obj : String)
        (quals : List Qual) (columns : List Column) (fuel : Nat)
        (cursor : Option String) (trace : List (List Row)) (acc : List Row)
        (reqs : Nat) (url : Url) (body : JValue) (rows : List Row)
        (cur : Option String),
      StripeFdw.build_url baseUrl obj quals 100 cursor = .ok url →
      remote url = .ok body →
      StripeFdw.resp_to_rows obj body columns = .ok (rows, cur, some false) →
      stripeFetchLoop remote baseUrl obj quals columns (fuel + 1) cursor
        trace acc reqs = .ok (reqs + 1, trace ++ [rows], acc ++ rows)) ∧
    (∀ (client : Unit) (remote : Url → StripeResp) (baseUrl : Url)
        (quals : List Qual) (columns : List Column) (sorts : List SortKey)
        (options : List (String × String)) (obj : String) (url : Url)
        (body : JValue) (rows : List Row) (cur : Option String),
      requireOption "object" options = some obj →
      StripeFdw.build_url baseUrl obj quals 100 none = .ok url →
      remote url = .ok body →
      StripeFdw.resp_to_rows obj body columns = .ok (rows, cur, some false) →
      StripeFdw.begin_scan (some client) remote baseUrl quals columns sorts
        none options = .ok ⟨1, [rows], some rows⟩) ∧
    (StripeFdw.begin_scan (some ()) c4remote defaultStripeBaseUrl []
        [⟨"id"⟩] [] none [("object", "customers")] =
      .ok ⟨2, [c4rows1, c4rows2], some (c4rows1 ++ c4rows2)⟩ ∧
     (c4rows1 ++ c4rows2).length = 105) := by
  refine ⟨?_, ?_, ?_, ?_⟩
  · intro remote baseUrl obj quals columns fuel cursor trace acc reqs url
      body rows cur hu hr hp
    exact stripeFetchLoop_hasMoreFalse remote baseUrl obj quals columns fuel
      cursor trace acc reqs url body rows cur hu hr hp
  · intro client remote baseUrl quals columns sorts options obj url body
      rows cur hopt hu hr hp
    have step := stripeFetchLoop_hasMoreFalse remote baseUrl obj quals
      columns 9223372036854775806 none [] [] 0 url body rows cur hu hr hp
    simp only [StripeFdw.begin_scan, hopt, i64Max_succ, step]
    rfl
  · rfl
  · rfl

/-- The single-page body of the C4 witness: one customer, `has_more`
present and false. -/
def c4wbody : JValue :=
  .obj [("object", .str "list"),
    ("data", .arr [.obj [("id", .str "cus_w")]]), ("has_more", .bool false)]

/-- The C4 witness remote. -/
def c4wremote : Url → StripeResp := fun _ => .ok c4wbody

/-- C4 witness: the first-page conjunct applied at a concrete scan whose
single page says `has_more = false` — exactly one request is made. -/
theorem C4_has_more_false_last_page_witness :
    StripeFdw.begin_scan (some ()) c4wremote defaultStripeBaseUrl [] [⟨"id"⟩]
      [] none [("object", "customers")] =
      .ok ⟨1, [[⟨[("id", some (Cell.String "cus_w"))]⟩]],
        some [⟨[("id", some (Cell.String "cus_w"))]⟩]⟩ :=
  C4_has_more_false_last_page.2.1 () c4wremote defaultStripeBaseUrl []
    [⟨"id"⟩] [] [("object", "customers")] "customers"
    ⟨"https://api.stripe.com/v1/customers", [("limit", "100")]⟩ c4wbody
    [⟨[("id", some (Cell.String "cus_w"))]⟩] (some "cus_w")
    rfl rfl rfl rfl

/-- The C10 scenario body: Stripe's `balance` object — a non-list response
with no `has_more` field, yet producing two rows. -/
def c10body : JValue :=
  .obj [("object", .str "balance"),
    ("available", .arr [.obj [("amount", .int 100), ("currency", .str "usd")]]),
    ("pending", .arr [.obj [("amount", .int 5), ("currency", .str "usd")]])]

/-- The C10 remote, answering every request with the balance object. -/
def c10remote : Url → StripeResp := fun _ => .ok c10body

/-- The two rows parsed from the C10 balance body. -/
def c10rows : List Row :=
  [⟨[("balance_type", some (Cell.String "available")),
     ("amount", some (Cell.I64 100))]⟩,
   ⟨[("balance_type", some (Cell.String "pending")),
     ("amount", some (Cell.I64 5))]⟩]

/-- C10: a fetched page whose response body contains no `has_more` field at
all terminates the pagination loop immediately after that page, even when
the page produced rows and no limit was supplied: (1) at any point of the
loop, a parsed page with `has_more` absent ends the loop after being
buffered; (2) the `balance` object scenario fetches exactly one page and
buffers its two rows. -/
theorem C10_missing_has_more_stops :
    (∀ (remote : Url → StripeResp) (baseUrl : Url) (obj : String)
        (quals : List Qual) (columns : List Column) (fuel : Nat)
        (cursor : Option String) (trace : List (List Row)) (acc : List Row)
        (reqs : Nat) (url : Url) (body : JValue) (rows : List Row)
        (cur : Option String),
      StripeFdw.build_url baseUrl obj quals 100 cursor = .ok url →
      remote url = .ok body →
      StripeFdw.resp_to_rows obj body columns = .ok (rows, cur, none) →
      stripeFetchLoop remote baseUrl obj quals columns (fuel + 1) cursor
        trace acc reqs = .ok (reqs + 1, trace ++ [rows], acc ++ rows)) ∧
    (StripeFdw.begin_scan (some ()) c10remote defaultStripeBaseUrl []
        [⟨"balance_type"⟩, ⟨"amount"⟩] [] none [("object", "balance")] =
      .ok ⟨1, [c10rows], some c10rows⟩ ∧
     c10rows.length = 2) := by
  refine ⟨?_, ?_, ?_⟩
  · intro remote baseUrl obj quals columns fuel cursor trace acc reqs url
      body rows cur hu hr hp
    exact stripeFetchLoop_noHasMore remote baseUrl obj quals columns fuel
      cursor trace acc reqs url body rows cur hu hr hp
  · rfl
  · rfl

/-- C10 witness: the general conjunct applied at the balance scenario
inputs. -/
theorem C10_missing_has_more_stops_witness :
    stripeFetchLoop c10remote defaultStripeBaseUrl "balance" []
      [⟨"balance_type"⟩, ⟨"amount"⟩] (0 + 1) none [] [] 0 =
      .ok (0 + 1, [] ++ [c10rows], [] ++ c10rows) :=
  C10_missing_has_more_stops.1 c10remote defaultStripeBaseUrl "balance" []
    [⟨"balance_type"⟩, ⟨"amount"⟩] 0 none [] [] 0
    ⟨"https://api.stripe.com/v1/balance", []⟩ c10body c10rows none
    rfl rfl rfl

/-- A fresh ClickHouse session state (all fields default). -/
def chFresh : ChScanState := ⟨"", "", [], none, 0, []⟩

/-- A ClickHouse remote answering every query with an empty one-column
block. -/
def c2remote : String → Option ChBlock := fun _ => some ⟨["a"], []⟩

/-- C2 counterexample: the claim says a `Limit` with `count == 0` always
short-circuits before any remote call, but `ClickHouseFdw::begin_scan` has
no such check: with `limit = Limit(count: 0, offset: 0)` it still sends the
deparsed query (`.. limit 0`) to the remote — one transport request, not
zero. -/
theorem C2_zero_count_counterexample :
    ClickHouseFdw.begin_scan true c2remote chFresh [] [⟨"a"⟩] []
        (some ⟨0, 0⟩) [("table", "t")] =
      .ok ⟨1, ["select a from t limit 0"],
        ⟨"t", "", [⟨"a"⟩], some ⟨["a"], []⟩, 0, []⟩⟩ ∧
    ["select a from t limit 0"].length ≠ 0 :=
  ⟨rfl, by decide⟩

/-- C2 (amended): for Stripe, a `Limit` with `count == 0` makes `begin_scan`
return with zero transport requests and no buffer, and every subsequent
`iter_scan` reports end-of-data.  For ClickHouse, the query is still issued
(exactly one, the deparsed SQL) and the block the remote answers with is
buffered; zero rows reach the caller only because the remote honours the
pushed-down `limit (offset + count)` and the host applies the offset
locally. -/
theorem C2_zero_count_amended :
    (∀ (client : Option Unit) (remote : Url → StripeResp) (baseUrl : Url)
        (quals : List Qual) (columns : List Column) (sorts : List SortKey)
        (l : Limit) (options : List (String × String)),
      l.count = 0 →
      StripeFdw.begin_scan client remote baseUrl quals columns sorts (some l)
          options = .ok ⟨0, [], none⟩ ∧
      StripeFdw.iter_scan none = (none, none)) ∧
    (∀ (remote : String → Option ChBlock) (self0 : ChScanState)
        (quals : List Qual) (columns : List Column) (sorts : List SortKey)
        (l : Limit) (options : List (String × String)) (table sql : String)
        (ps : List Qual) (blk : ChBlock),
      requireOption "table" options = some table →
      ClickHouseFdw.deparse table self0.params quals columns sorts (some l) =
        .ok (sql, ps) →
      remote sql = some blk →
      ClickHouseFdw.begin_scan true remote self0 quals columns sorts (some l)
          options =
        .ok ⟨1, [sql], { self0 with
          table := table
          tgtCols := columns
          rowIdx := 0
          params := ps
          scanBlk := some blk }⟩) := by
  constructor
  · intro client remote baseUrl quals columns sorts l options hc
    refine ⟨?_, rfl⟩
    simp only [StripeFdw.begin_scan]
    cases requireOption "object" options with
    | none => rfl
    | some obj =>
      cases client with
      | none => rfl
      | some c => simp [hc]
  · intro remote self0 quals columns sorts l options table sql ps blk hopt
      hdep hrem
    simp only [ClickHouseFdw.begin_scan, hopt, hdep, hrem]
    rfl

/-- C2 witness: both amended conjuncts at concrete inputs — a Stripe scan
with `count = 0` makes no request, and a ClickHouse scan with `count = 0`
still sends `select a from t limit 0`. -/
theorem C2_zero_count_amended_witness :
    (StripeFdw.begin_scan (some ()) c5remote defaultStripeBaseUrl [] [] []
        (some ⟨0, 7⟩) [("object", "accounts")] = .ok ⟨0, [], none⟩ ∧
      StripeFdw.iter_scan none = (none, none)) ∧
    ClickHouseFdw.begin_scan true c2remote chFresh [] [⟨"a"⟩] []
        (some ⟨0, 0⟩) [("table", "t")] =
      .ok ⟨1, ["select a from t limit 0"],
        { chFresh with
          table := "t"
          tgtCols := [⟨"a"⟩]
          rowIdx := 0
          params := []
          scanBlk := some ⟨["a"], []⟩ }⟩ :=
  ⟨C2_zero_count_amended.1 (some ()) c5remote defaultStripeBaseUrl [] [] []
      ⟨0, 7⟩ [("object", "accounts")] rfl,
    C2_zero_count_amended.2 c2remote chFresh [] [⟨"a"⟩] [] ⟨0, 0⟩
      [("table", "t")] "t" "select a from t limit 0" [] ⟨["a"], []⟩
      rfl rfl rfl⟩

/-- C8 counterexample: the claim says that with the required remote-target
option missing, `begin_scan` "returns without contacting the remote"; but
`ClickHouseFdw::begin_scan` calls `create_client()` — which establishes a
remote connection via `pool.get_handle()` — *before* checking the `table`
option, so one connection attempt reaches the remote even though the option
is absent. -/
theorem C8_missing_option_counterexample :
    ClickHouseFdw.begin_scan true (fun _ => none) chFresh [] [] [] none [] =
      .ok ⟨1, [], chFresh⟩ ∧ (1 : Nat) ≠ 0 :=
  ⟨rfl, by decide⟩

/-- C8 (amended): a `begin_scan` whose options lack the required
remote-target option scans empty instead of failing.  For Stripe no remote
request at all is made; for ClickHouse a connection is established first but
no query is issued.  In both connectors zero rows are buffered and
subsequent `iter_scan` calls report end-of-data. -/
theorem C8_missing_option_scans_empty :
    (∀ (client : Option Unit) (remote : Url → StripeResp) (baseUrl : Url)
        (quals : List Qual) (columns : List Column) (sorts : List SortKey)
        (limit : Option Limit) (options : List (String × String)),
      requireOption "object" options = none →
      StripeFdw.begin_scan client remote baseUrl quals columns sorts limit
          options = .ok ⟨0, [], none⟩ ∧
      StripeFdw.iter_scan none = (none, none)) ∧
    (∀ (remote : String → Option ChBlock) (self0 : ChScanState)
        (quals : List Qual) (columns : List Column) (sorts : List SortKey)
        (limit : Option Limit) (options : List (String × String)),
      requireOption "table" options = none →
      ClickHouseFdw.begin_scan true remote self0 quals columns sorts limit
          options = .ok ⟨1, [], self0⟩ ∧
      (self0.scanBlk = none →
        ClickHouseFdw.iter_scan self0 = .ok (none, self0))) := by
  constructor
  · intro client remote baseUrl quals columns sorts limit options hopt
    exact ⟨by simp only [StripeFdw.begin_scan, hopt], rfl⟩
  · intro remote self0 quals columns sorts limit options hopt
    refine ⟨by simp only [ClickHouseFdw.begin_scan, hopt]; rfl, ?_⟩
    intro hblk
    simp only [ClickHouseFdw.iter_scan, hblk]

/-- C8 witness: both amended conjuncts at concrete misconfigured sessions. -/
theorem C8_missing_option_scans_empty_witness :
    (StripeFdw.begin_scan (some ()) c5remote defaultStripeBaseUrl [] [] []
        none [("wrong", "x")] = .ok ⟨0, [], none⟩ ∧
      StripeFdw.iter_scan none = (none, none)) ∧
    (ClickHouseFdw.begin_scan true c2remote chFresh [] [] [] none [] =
        .ok ⟨1, [], chFresh⟩ ∧
      (chFresh.scanBlk = none →
        ClickHouseFdw.iter_scan chFresh = .ok (none, chFresh))) :=
  ⟨C8_missing_option_scans_empty.1 (some ()) c5remote defaultStripeBaseUrl
      [] [] [] none [("wrong", "x")] rfl,
    C8_missing_option_scans_empty.2 c2remote chFresh [] [] [] none [] rfl⟩

/-- The pagination loop makes at most one request per unit of page budget. -/
theorem stripeFetchLoop_requests_le (remote : Url → StripeResp)
    (baseUrl : Url) (obj : String) (quals : List Qual)
    (columns : List Column) :
    ∀ (fuel : Nat) (cursor : Option String) (trace : List (List Row))
      (acc : List Row) (reqs : Nat) (r : Nat) (tr : List (List Row))
      (a : List Row),
      stripeFetchLoop remote baseUrl obj quals columns fuel cursor trace acc
        reqs = .ok (r, tr, a) → r ≤ reqs + fuel := by
  intro fuel
  induction fuel with
  | zero =>
    intro cursor trace acc reqs r tr a h
    simp only [stripeFetchLoop, Except.ok.injEq, Prod.mk.injEq] at h
    omega
  | succ fuel ih =>
    intro cursor trace acc reqs r tr a h
    simp only [stripeFetchLoop] at h
    split at h
    · exact absurd h (by simp)
    · split at h
      · simp only [Except.ok.injEq, Prod.mk.injEq] at h
        omega
      · exact absurd h (by simp)
      · split at h
        · exact absurd h (by simp)
        · split at h
          · simp only [Except.ok.injEq, Prod.mk.injEq] at h
            omega
          · split at h
            · have := ih _ _ _ _ _ _ _ h
              omega
            · simp only [Except.ok.injEq, Prod.mk.injEq] at h
              omega
            · simp only [Except.ok.injEq, Prod.mk.injEq] at h
              omega

/-- C6: the limit offset is never sent to the remote.  (1) The ClickHouse
deparse with a limit produces exactly the no-limit SQL with
`" limit " ++ (offset + count)` appended — no OFFSET clause exists.  (2) A
Stripe scan with a limit makes at most
`(limit.offset + limit.count) / page_size + 1` requests (page size 100).
(3) For `limit = Limit(count: 5, offset: 10)` the page ceiling is
`(10 + 5) / 100 + 1 = 1`. -/
theorem C6_offset_never_pushed :
    (∀ (table0 : String) (params0 quals : List Qual) (columns : List Column)
        (sorts : List SortKey) (l : Limit),
      ClickHouseFdw.deparse table0 params0 quals columns sorts (some l) =
        (ClickHouseFdw.deparse table0 params0 quals columns sorts none).map
          (fun r => (r.1 ++ " limit " ++ toString (l.offset + l.count), r.2))) ∧
    (∀ (client : Option Unit) (remote : Url → StripeResp) (baseUrl : Url)
        (quals : List Qual) (columns : List Column) (sorts : List SortKey)
        (l : Limit) (options : List (String × String))
        (st : StripeScanState),
      l.count ≠ 0 →
      StripeFdw.begin_scan client remote baseUrl quals columns sorts (some l)
        options = .ok st →
      st.requests ≤ stripePageCnt l) ∧
    stripePageCnt ⟨5, 10⟩ = 1 := by
  refine ⟨?_, ?_, rfl⟩
  · intro table0 params0 quals columns sorts l
    simp only [ClickHouseFdw.deparse]
    cases htbl : (if strStartsParen table0 then
        (substTemplateAux quals table0.data).map
          (fun r => (String.mk r.1, params0 ++ r.2))
      else .ok (table0, params0)) with
    | error e => rfl
    | ok tp =>
      simp only [Except.map, chLimit, String.append_assoc]
      rfl
  · intro client remote baseUrl quals columns sorts l options st hc h
    simp only [StripeFdw.begin_scan] at h
    cases hopt : requireOption "object" options with
    | none =>
      rw [hopt] at h
      cases h
      exact Nat.zero_le _
    | some obj =>
      rw [hopt] at h
      cases client with
      | none =>
        simp only [] at h
        cases h
        exact Nat.zero_le _
      | some c =>
        simp only [if_neg hc] at h
        cases hloop : stripeFetchLoop remote baseUrl obj quals columns
            (stripePageCnt l) none [] [] 0 with
        | error e => rw [hloop] at h; cases h
        | ok v =>
          rw [hloop] at h
          cases h
          have hb := stripeFetchLoop_requests_le remote baseUrl obj quals
            columns (stripePageCnt l) none [] [] 0 v.1 v.2.1 v.2.2
            (by rw [hloop])
          simpa using hb

/-- C6 witness: the deparse conjunct and the Stripe page-ceiling bound at
`limit = Limit(count: 5, offset: 10)` (one request made, ceiling 1). -/
theorem C6_offset_never_pushed_witness :
    (ClickHouseFdw.deparse "t" [] [] [⟨"a"⟩] [] (some ⟨5, 10⟩) =
      (ClickHouseFdw.deparse "t" [] [] [⟨"a"⟩] [] none).map
        (fun r => (r.1 ++ " limit " ++ toString (10 + 5), r.2))) ∧
    (StripeScanState.mk 1 [] (some [])).requests ≤ stripePageCnt ⟨5, 10⟩ :=
  ⟨C6_offset_never_pushed.1 "t" [] [] [⟨"a"⟩] [] ⟨5, 10⟩,
    C6_offset_never_pushed.2.1 (some ()) c5remote defaultStripeBaseUrl [] []
      [] ⟨5, 10⟩ [("object", "accounts")] ⟨1, [], some []⟩ (by decide) rfl⟩

/-- Pagination-loop invariant: if the buffer equals the concatenation of the
traced pages on entry, it still does on exit. -/
theorem stripeFetchLoop_flatten (remote : Url → StripeResp) (baseUrl : Url)
    (obj : String) (quals : List Qual) (columns : List Column) :
    ∀ (fuel : Nat) (cursor : Option String) (trace : List (List Row))
      (acc : List Row) (reqs : Nat) (r : Nat) (tr : List (List Row))
      (a : List Row),
      stripeFetchLoop remote baseUrl obj quals columns fuel cursor trace acc
        reqs = .ok (r, tr, a) → acc = trace.flatten → a = tr.flatten := by
  intro fuel
  induction fuel with
  | zero =>
    intro cursor trace acc reqs r tr a h hinv
    simp only [stripeFetchLoop, Except.ok.injEq, Prod.mk.injEq] at h
    obtain ⟨-, h2, h3⟩ := h
    subst h2; subst h3; exact hinv
  | succ fuel ih =>
    intro cursor trace acc reqs r tr a h hinv
    simp only [stripeFetchLoop] at h
    split at h
    · exact absurd h (by simp)
    · split at h
      · simp only [Except.ok.injEq, Prod.mk.injEq] at h
        obtain ⟨-, h2, h3⟩ := h
        subst h2; subst h3; exact hinv
      · exact absurd h (by simp)
      · split at h
        · exact absurd h (by simp)
        · split at h
          · rename_i rows starting_after has_more heq hempty
            simp only [Except.ok.injEq, Prod.mk.injEq] at h
            obtain ⟨-, h2, h3⟩ := h
            subst h2; subst h3
            have hrows : rows = [] := by simpa [List.isEmpty_iff] using hempty
            subst hrows
            simp [hinv]
          · split at h
            · exact ih _ _ _ _ _ _ _ h (by simp [hinv])
            · simp only [Except.ok.injEq, Prod.mk.injEq] at h
              obtain ⟨-, h2, h3⟩ := h
              subst h2; subst h3
              simp [hinv]
            · simp only [Except.ok.injEq, Prod.mk.injEq] at h
              obtain ⟨-, h2, h3⟩ := h
              subst h2; subst h3
              simp [hinv]

/-- Draining a buffer of known length by repeated `iter_scan` returns
exactly the buffered rows, in order. -/
theorem stripeDrain_eq : ∀ l : List Row, stripeDrain l.length (some l) = l := by
  intro l
  induction l with
  | nil => rfl
  | cons r rest ih =>
    simp only [List.length_cons, stripeDrain, StripeFdw.iter_scan]
    exact congrArg (fun x => r :: x) ih

/-- With enough iteration budget, draining a ClickHouse session delivers
exactly the conversion of the block rows from the current index on, in
order (or the error of the first row whose conversion fails). -/
theorem chDrain_eq_convAll :
    ∀ (fuel : Nat) (st : ChScanState) (blk : ChBlock),
      st.scanBlk = some blk → blk.rows.length ≤ st.rowIdx + fuel →
      chDrain fuel st =
        chConvAll blk st.tgtCols st.params (blk.rows.drop st.rowIdx) := by
  intro fuel
  induction fuel with
  | zero =>
    intro st blk hblk hlen
    rw [List.drop_eq_nil_of_le (by omega)]
    rfl
  | succ fuel ih =>
    intro st blk hblk hlen
    simp only [chDrain, ClickHouseFdw.iter_scan, hblk]
    cases hget : blk.rows[st.rowIdx]? with
    | none =>
      have hge : blk.rows.length ≤ st.rowIdx := by
        by_contra hlt
        push_neg at hlt
        simp [List.getElem?_eq_getElem hlt] at hget
      rw [List.drop_eq_nil_of_le hge]
      rfl
    | some srcRow =>
      have hlt : st.rowIdx < blk.rows.length := by
        by_contra hge
        push_neg at hge
        simp [List.getElem?_eq_none hge] at hget
      have hval : blk.rows[st.rowIdx] = srcRow := by
        have := List.getElem?_eq_getElem hlt
        rw [hget] at this
        exact (Option.some.injEq _ _).mp this.symm
      have hcons : blk.rows.drop st.rowIdx =
          srcRow :: blk.rows.drop (st.rowIdx + 1) := by
        rw [List.drop_eq_getElem_cons hlt, hval]
      rw [hcons]
      cases hconv : chConvCells blk st.params srcRow st.tgtCols with
      | error e => simp [chConvAll, hconv]
      | ok cells =>
        simp only [chConvAll, hconv]
        have hrec := ih
          ⟨st.table, st.rowidCol, st.tgtCols, some blk, st.rowIdx + 1,
            st.params⟩ blk rfl
          (by show blk.rows.length ≤ st.rowIdx + 1 + fuel; omega)
        rw [hrec]

/-- A successful Stripe `begin_scan` either returned early (no buffer set)
or ran the pagination loop from a fresh state and stored its outcome. -/
theorem stripe_begin_scan_cases (client : Option Unit)
    (remote : Url → StripeResp) (baseUrl : Url) (quals : List Qual)
    (columns : List Column) (sorts : List SortKey) (limit : Option Limit)
    (options : List (String × String)) (st : StripeScanState)
    (h : StripeFdw.begin_scan client remote baseUrl quals columns sorts limit
      options = .ok st) :
    st = ⟨0, [], none⟩ ∨
    ∃ (obj : String) (pageCnt : Nat) (v : Nat × List (List Row) × List Row),
      requireOption "object" options = some obj ∧
      stripeFetchLoop remote baseUrl obj quals columns pageCnt none [] [] 0 =
        .ok v ∧
      st = ⟨v.1, v.2.1, some v.2.2⟩ := by
  simp only [StripeFdw.begin_scan] at h
  cases hopt : requireOption "object" options with
  | none =>
    rw [hopt] at h
    cases h
    exact Or.inl rfl
  | some obj =>
    rw [hopt] at h
    cases client with
    | none =>
      simp only [] at h
      cases h
      exact Or.inl rfl
    | some c =>
      cases limit with
      | none =>
        simp only [] at h
        cases hloop : stripeFetchLoop remote baseUrl obj quals columns
            i64Max none [] [] 0 with
        | error e => rw [hloop] at h; cases h
        | ok v =>
          rw [hloop] at h
          cases h
          exact Or.inr ⟨obj, i64Max, v, rfl, hloop, rfl⟩
      | some l =>
        by_cases hc : l.count = 0
        · simp only [if_pos hc] at h
          cases h
          exact Or.inl rfl
        · simp only [if_neg hc] at h
          cases hloop : stripeFetchLoop remote baseUrl obj quals columns
              (stripePageCnt l) none [] [] 0 with
          | error e => rw [hloop] at h; cases h
          | ok v =>
            rw [hloop] at h
            cases h
            exact Or.inr ⟨obj, stripePageCnt l, v, rfl, hloop, rfl⟩

/-- C1: a completed scan delivers, through successive `iter_scan` calls,
exactly the rows fetched from the remote, in arrival order.  (1) For Stripe,
the buffer a successful `begin_scan` stores is the concatenation, in arrival
order, of the rows parsed from the fetched pages; its length is the summed
page row count (so rows delivered never exceed rows fetched); and draining
it returns exactly the buffered rows in order.  (2) Each `iter_scan` call on
a non-empty buffer removes exactly the front row, so the buffer length
strictly decreases by one per delivered row.  (3) For ClickHouse, draining a
freshly positioned session delivers the conversion of every block row in
order (any conversion failure aborts the scan, so a completed scan skips and
duplicates nothing). -/
theorem C1_iter_scan_drains_in_order :
    (∀ (client : Option Unit) (remote : Url → StripeResp) (baseUrl : Url)
        (quals : List Qual) (columns : List Column) (sorts : List SortKey)
        (limit : Option Limit) (options : List (String × String))
        (st : StripeScanState) (buf : List Row),
      StripeFdw.begin_scan client remote baseUrl quals columns sorts limit
        options = .ok st →
      st.scanResult = some buf →
      buf = st.trace.flatten ∧
      buf.length = (st.trace.map List.length).sum ∧
      stripeDrain buf.length (some buf) = buf) ∧
    (∀ (r : Row) (rest : List Row),
      StripeFdw.iter_scan (some (r :: rest)) = (some r, some rest)) ∧
    (∀ (st : ChScanState) (blk : ChBlock),
      st.scanBlk = some blk → st.rowIdx = 0 →
      chDrain blk.rows.length st =
        chConvAll blk st.tgtCols st.params blk.rows) := by
  refine ⟨?_, fun r rest => rfl, ?_⟩
  · intro client remote baseUrl quals columns sorts limit options st buf h
      hres
    have hflat : buf = st.trace.flatten := by
      rcases stripe_begin_scan_cases client remote baseUrl quals columns
        sorts limit options st h with hearly | ⟨obj, pageCnt, v, -, hloop, hst⟩
      · subst hearly
        exact absurd hres (by simp)
      · subst hst
        simp only at hres
        have hbuf : buf = v.2.2 := by
          have := hres
          simp only [Option.some.injEq] at this
          exact this.symm
        subst hbuf
        exact stripeFetchLoop_flatten remote baseUrl obj quals columns
          pageCnt none [] [] 0 v.1 v.2.1 v.2.2 (by rw [hloop]) rfl
    refine ⟨hflat, ?_, stripeDrain_eq buf⟩
    rw [hflat]
    exact List.length_flatten st.trace
  · intro st blk hblk hidx
    have := chDrain_eq_convAll blk.rows.length st blk hblk (by omega)
    rw [hidx] at this
    simpa using this

/-- The single-page body of the C1 witness scenario. -/
def c1body : JValue :=
  .obj [("object", .str "list"),
    ("data", .arr [.obj [("id", .str "cus_w")]]), ("has_more", .bool false)]

/-- The C1 witness remote. -/
def c1remote : Url → StripeResp := fun _ => .ok c1body

/-- The single row of the C1 witness scenario. -/
def c1row : Row := ⟨[("id", some (Cell.String "cus_w"))]⟩

/-- The one-row block of the C1 ClickHouse witness scenario. -/
def c1blk : ChBlock := ⟨["a"], [[ChVal.int32 7]]⟩

/-- The C1 ClickHouse witness session, freshly positioned on `c1blk`. -/
def c1st : ChScanState := ⟨"t", "", [⟨"a"⟩], some c1blk, 0, []⟩

/-- C1 witness: all three conjuncts applied at concrete scans. -/
theorem C1_iter_scan_drains_in_order_witness :
    ([c1row] = ([[c1row]] : List (List Row)).flatten ∧
      [c1row].length = (([[c1row]] : List (List Row)).map List.length).sum ∧
      stripeDrain [c1row].length (some [c1row]) = [c1row]) ∧
    StripeFdw.iter_scan (some (c1row :: [])) = (some c1row, some []) ∧
    chDrain c1blk.rows.length c1st =
      chConvAll c1blk c1st.tgtCols c1st.params c1blk.rows :=
  ⟨C1_iter_scan_drains_in_order.1 (some ()) c1remote defaultStripeBaseUrl []
      [⟨"id"⟩] [] none [("object", "customers")] ⟨1, [[c1row]], some [c1row]⟩
      [c1row] rfl rfl,
    C1_iter_scan_drains_in_order.2.1 c1row [],
    C1_iter_scan_drains_in_order.2.2 c1st c1blk rfl rfl⟩

/-- The C9 counterexample row: one schema-mapped column plus an `attrs`
passthrough cell. -/
def c9row : Row :=
  ⟨[("x", some (.I64 2)), ("attrs", some (.Json (.obj [("a", .int 1)])))]⟩

/-- Encoding `c9row` merges the `attrs` object into the top level. -/
def c9body : JValue := .obj [("x", .int 2), ("a", .int 1)]

/-- Decoding `c9body` rebuilds `attrs` from the *whole* object, normal
columns included. -/
def c9decoded : Row := ⟨[("x", some (.I64 2)), ("attrs", some (.Json c9body))]⟩

/-- C9 counterexample: the round trip is not the identity on all non-absent
columns.  Encoding a row that has both a normal column and an `attrs` cell
merges the `attrs` content into the top level of the payload; decoding then
rebuilds `attrs` from the whole object, so the decoded `attrs` cell — present
on both sides — differs from the original. -/
theorem C9_round_trip_counterexample :
    row_to_body c9row = .ok c9body ∧
    body_to_rows c9body [("x", "i64")] [⟨"x"⟩, ⟨"attrs"⟩] =
      some ([c9decoded], none, none) ∧
    c9row.cols.find? (fun p => p.1 = "attrs") =
      some ("attrs", some (.Json (.obj [("a", .int 1)]))) ∧
    c9decoded.cols.find? (fun p => p.1 = "attrs") =
      some ("attrs", some (.Json c9body)) ∧
    (some (Cell.Json c9body) : Option Cell) ≠
      some (Cell.Json (.obj [("a", .int 1)])) := by
  refine ⟨rfl, rfl, rfl, rfl, ?_⟩
  simp [c9body]

/-- The schema type tag under which a cell survives the Stripe round trip
(the three tags whose coercion is inverse to the `row_to_body` encoding). -/
def cellTag : Cell → Option String
  | .Bool _ => some "bool"
  | .I64 _ => some "i64"
  | .String _ => some "string"
  | _ => none

/-- The JSON value `row_to_body` produces for a round-trippable cell. -/
def encCell : Cell → JValue
  | .Bool b => .bool b
  | .I64 i => .int i
  | .String s => .str s
  | _ => .null

/-- A (name, cell) column that round-trips: not the `attrs` passthrough, not
the `object` discriminator field, and mapped by the schema under the tag
matching its cell. -/
def goodCol (schema : List (String × String)) (p : String × Cell) : Bool :=
  decide (p.1 ≠ "attrs") && decide (p.1 ≠ "object") &&
    (match cellTag p.2 with
     | some t => decide (schema.find? (fun e => e.1 = p.1) = some (p.1, t))
     | none => false)

/-- Unpacking `goodCol`. -/
theorem goodCol_spec (schema : List (String × String)) (p : String × Cell)
    (h : goodCol schema p = true) :
    p.1 ≠ "attrs" ∧ p.1 ≠ "object" ∧ ∃ t, cellTag p.2 = some t ∧
      schema.find? (fun e => e.1 = p.1) = some (p.1, t) := by
  unfold goodCol at h
  cases hc : cellTag p.2 with
  | none => rw [hc] at h; simp at h
  | some t =>
    rw [hc] at h
    simp only [Bool.and_eq_true, decide_eq_true_eq] at h
    exact ⟨h.1.1, h.1.2, t, rfl, h.2⟩

/-- Looking an encoded row's field up by name finds the encoding of the
original cell (names unique). -/
theorem find_map_enc (full : List (String × Cell))
    (hnd : (full.map Prod.fst).Nodup) (p : String × Cell) (hp : p ∈ full) :
    (full.map (fun q => (q.1, encCell q.2))).find?
      (fun e => e.1 = p.1) = some (p.1, encCell p.2) := by
  induction full with
  | nil => cases hp
  | cons q rest ih =>
    simp only [List.map_cons]
    by_cases hq : q.1 = p.1
    · have hpq : p = q := by
        cases hp with
        | head => rfl
        | tail _ hmem =>
          exfalso
          have : p.1 ∈ rest.map Prod.fst := List.mem_map_of_mem Prod.fst hmem
          rw [List.map_cons, List.nodup_cons] at hnd
          exact hnd.1 (hq ▸ this)
      subst hpq
      rw [List.find?_cons_of_pos _ (by simp)]
    · have hmem : p ∈ rest := by
        cases hp with
        | head => exact absurd rfl hq
        | tail _ hmem => exact hmem
      rw [List.map_cons, List.nodup_cons] at hnd
      rw [List.find?_cons_of_neg _ (by simp [hq])]
      exact ih hnd.2 hmem

/-- A key that is no column name is absent from the encoded row. -/
theorem jGet_map_enc_none (full : List (String × Cell)) (key : String)
    (h : ∀ p ∈ full, p.1 ≠ key) :
    jGet (full.map (fun q => (q.1, encCell q.2))) key = none := by
  unfold jGet
  rw [List.find?_eq_none.mpr]
  · rfl
  · intro x hx
    simp only [List.mem_map] at hx
    obtain ⟨q, hq, rfl⟩ := hx
    simpa using h q hq

/-- Encoding round-trippable columns into a map whose keys are disjoint from
theirs appends their encodings in order. -/
theorem rowToBodyAux_append (schema : List (String × String)) :
    ∀ (cols : List (String × Cell)) (m : List (String × JValue)),
      (cols.map Prod.fst).Nodup →
      (∀ p ∈ cols, goodCol schema p = true) →
      (∀ p ∈ cols, m.any (fun e => e.1 = p.1) = false) →
      rowToBodyAux (cols.map (fun p => (p.1, some p.2))) m =
        .ok (m ++ cols.map (fun p => (p.1, encCell p.2))) := by
  intro cols
  induction cols with
  | nil =>
    intro m hnd hgood hdisj
    simp [rowToBodyAux]
  | cons p rest ih =>
    intro m hnd hgood hdisj
    obtain ⟨-, -, t, htag, -⟩ := goodCol_spec schema p (hgood p (by simp))
    have hins : mapInsert m p.1 (encCell p.2) = m ++ [(p.1, encCell p.2)] := by
      unfold mapInsert
      rw [if_neg]
      simp [hdisj p (by simp)]
    have hnd2 : (rest.map Prod.fst).Nodup := by
      rw [List.map_cons, List.nodup_cons] at hnd
      exact hnd.2
    have hnotin : p.1 ∉ rest.map Prod.fst := by
      rw [List.map_cons, List.nodup_cons] at hnd
      exact hnd.1
    have hdisj2 : ∀ q ∈ rest,
        (m ++ [(p.1, encCell p.2)]).any (fun e => e.1 = q.1) = false := by
      intro q hq
      rw [List.any_append]
      have h1 : m.any (fun e => e.1 = q.1) = false :=
        hdisj q (List.mem_cons_of_mem p hq)
      have h2 : p.1 ≠ q.1 := by
        intro hcontra
        exact hnotin (hcontra ▸ List.mem_map_of_mem Prod.fst hq)
      simp [h1, h2]
    have hrec := ih (m ++ [(p.1, encCell p.2)]) hnd2
      (fun q hq => hgood q (List.mem_cons_of_mem p hq)) hdisj2
    cases hcell : p.2 with
    | Bool b =>
      rw [hcell] at hins hrec
      simp only [encCell] at hins hrec
      simp only [List.map_cons, rowToBodyAux, hcell, encCell]
      rw [hins, hrec]
      simp
    | I64 i =>
      rw [hcell] at hins hrec
      simp only [encCell] at hins hrec
      simp only [List.map_cons, rowToBodyAux, hcell, encCell]
      rw [hins, hrec]
      simp
    | String s =>
      rw [hcell] at hins hrec
      simp only [encCell] at hins hrec
      simp only [List.map_cons, rowToBodyAux, hcell, encCell]
      rw [hins, hrec]
      simp
    | I16 i => rw [hcell] at htag; simp [cellTag] at htag
    | I32 i => rw [hcell] at htag; simp [cellTag] at htag
    | F32 f => rw [hcell] at htag; simp [cellTag] at htag
    | F64 f => rw [hcell] at htag; simp [cellTag] at htag
    | Date d => rw [hcell] at htag; simp [cellTag] at htag
    | Timestamp ts => rw [hcell] at htag; simp [cellTag] at htag
    | Json v => rw [hcell] at htag; simp [cellTag] at htag

/-- The schema coercion is inverse to the encoding on round-trippable
cells. -/
theorem coerce_enc (c : Cell) (t : String) (h : cellTag c = some t) :
    coerceCell t (encCell c) = some c := by
  cases c with
  | Bool b => simp [cellTag] at h; subst h; rfl
  | I64 i => simp [cellTag] at h; subst h; rfl
  | String s => simp [cellTag] at h; subst h; rfl
  | I16 i => simp [cellTag] at h
  | I32 i => simp [cellTag] at h
  | F32 f => simp [cellTag] at h
  | F64 f => simp [cellTag] at h
  | Date d => simp [cellTag] at h
  | Timestamp ts => simp [cellTag] at h
  | Json v => simp [cellTag] at h

/-- Extracting the requested columns from the encoded row recovers the
original cells, in request order. -/
theorem extractCells_round (schema : List (String × String))
    (full : List (String × Cell)) (hnd : (full.map Prod.fst).Nodup)
    (hgood : ∀ p ∈ full, goodCol schema p = true) :
    ∀ sub : List (String × Cell), (∀ p ∈ sub, p ∈ full) →
      extractCells schema
          (.obj (full.map (fun q => (q.1, encCell q.2))))
          (sub.map (fun p => ⟨p.1⟩)) =
        sub.map (fun p => (p.1, some p.2)) := by
  intro sub
  induction sub with
  | nil => intro hsub; rfl
  | cons p rest ih =>
    intro hsub
    have hpfull : p ∈ full := hsub p (by simp)
    obtain ⟨-, -, t, htag, hfind⟩ :=
      goodCol_spec schema p (hgood p hpfull)
    have hj : jGet (full.map (fun q => (q.1, encCell q.2))) p.1 =
        some (encCell p.2) := by
      unfold jGet
      rw [find_map_enc full hnd p hpfull]
      rfl
    simp only [List.map_cons, extractCells, hfind]
    rw [List.cons.injEq]
    constructor
    · simp only [JValue.asObject, Option.bind, hj, coerce_enc p.2 t htag]
    · exact ih (fun q hq => hsub q (List.mem_cons_of_mem p hq))

/-- C9 (amended): the Stripe mappers are mutually inverse on rows made of
schema-mapped scalar cells.  For every row whose columns have pairwise
distinct names, none named `attrs` (the merge-into-top-level passthrough) or
`object` (the response-shape discriminator), and each carrying a present
`bool`/`i64`/`string` cell mapped by the schema under the matching type tag,
encoding via `row_to_body` and decoding the payload via `body_to_rows` (with
target columns covering exactly the row's columns) yields the original row
back, every column included. -/
theorem C9_round_trip_amended :
    ∀ (cols : List (String × Cell)) (schema : List (String × String)),
      (cols.map Prod.fst).Nodup →
      (∀ p ∈ cols, goodCol schema p = true) →
      ∃ (cursor : Option String) (hasMore : Option Bool),
        row_to_body ⟨cols.map (fun p => (p.1, some p.2))⟩ =
          .ok (.obj (cols.map (fun p => (p.1, encCell p.2)))) ∧
        body_to_rows (.obj (cols.map (fun p => (p.1, encCell p.2)))) schema
            (cols.map (fun p => ⟨p.1⟩)) =
          some ([⟨cols.map (fun p => (p.1, some p.2))⟩], cursor, hasMore) := by
  intro cols schema hnd hgood
  have henc : row_to_body ⟨cols.map (fun p => (p.1, some p.2))⟩ =
      .ok (.obj (cols.map (fun p => (p.1, encCell p.2)))) := by
    unfold row_to_body
    rw [rowToBodyAux_append schema cols [] hnd hgood (fun p hp => rfl)]
    simp [Except.map]
  have hobj : jGet (cols.map (fun q => (q.1, encCell q.2))) "object" = none :=
    jGet_map_enc_none cols "object"
      (fun p hp => (goodCol_spec schema p (hgood p hp)).2.1)
  have hext := extractCells_round schema cols hnd hgood cols (fun q hq => hq)
  simp only [body_to_rows, JValue.asObject, hobj, Option.none_bind,
    Option.map_none', Option.getD_none, Bool.false_eq_true, if_false,
    Option.some_bind, Option.map_some', List.map_cons, List.map_nil, hext,
    Option.bind_eq_bind, Option.pure_def]
  exact ⟨_, _, henc, rfl⟩

/-- C9 witness: the amended round trip evaluated on a one-column row. -/
theorem C9_round_trip_amended_witness :
    ∃ (cursor : Option String) (hasMore : Option Bool),
      row_to_body ⟨[("x", some (Cell.I64 2))]⟩ =
        .ok (.obj [("x", JValue.int 2)]) ∧
      body_to_rows (.obj [("x", JValue.int 2)]) [("x", "i64")] [⟨"x"⟩] =
        some ([⟨[("x", some (Cell.I64 2))]⟩], cursor, hasMore) :=
  C9_round_trip_amended [("x", Cell.I64 2)] [("x", "i64")] (by decide)
    (by decide)

/-- A run of word characters followed by a non-word character splits
`takeWhile`/`dropWhile` at the boundary. -/
theorem takeWhile_word_append (ws : List Char) (r : Char) (rest : List Char)
    (hws : ∀ c ∈ ws, isWordChar c = true) (hr : isWordChar r = false) :
    (ws ++ r :: rest).takeWhile isWordChar = ws ∧
    (ws ++ r :: rest).dropWhile isWordChar = r :: rest := by
  induction ws with
  | nil => simp [List.takeWhile_cons, List.dropWhile_cons, hr]
  | cons w ws' ih =>
    have hw : isWordChar w = true := hws w (by simp)
    have ih2 := ih (fun c hc => hws c (List.mem_cons_of_mem w hc))
    simp only [List.cons_append, List.takeWhile_cons, List.dropWhile_cons,
      hw, if_true]
    exact ⟨by rw [ih2.1], by rw [ih2.2]⟩

/-- Scanning a dollar-free prefix copies it verbatim and continues. -/
theorem substFuel_copy (quals : List Qual) :
    ∀ (cs rest : List Char) (fuel : Nat), (∀ c ∈ cs, c ≠ '$') →
      (cs ++ rest).length ≤ fuel →
      substFuel quals fuel (cs ++ rest) =
        (substFuel quals (fuel - cs.length) rest).map
          (fun r => (cs ++ r.1, r.2)) := by
  intro cs
  induction cs with
  | nil =>
    intro rest fuel hnd hlen
    simp only [List.nil_append, List.length_nil, Nat.sub_zero]
    cases substFuel quals fuel rest with
    | error e => rfl
    | ok r => rfl
  | cons c cs' ih =>
    intro rest fuel hnd hlen
    have hc : c ≠ '$' := hnd c (by simp)
    cases fuel with
    | zero => simp at hlen
    | succ g =>
      have hg : (cs' ++ rest).length ≤ g := by
        simp only [List.cons_append, List.length_cons] at hlen
        omega
      simp only [List.cons_append, substFuel, hc, false_and, if_false,
        List.append_eq]
      rw [ih rest g (fun x hx => hnd x (List.mem_cons_of_mem c hx)) hg]
      have hsub : g + 1 - (c :: cs').length = g - cs'.length := by
        simp only [List.length_cons]
        omega
      rw [hsub]
      cases substFuel quals (g - cs'.length) rest with
      | error e => rfl
      | ok r => rfl

/-- Scanning a dollar-free tail yields it back with no parameter consumed. -/
theorem substFuel_tail (quals : List Qual) :
    ∀ (cs : List Char) (fuel : Nat), (∀ c ∈ cs, c ≠ '$') →
      cs.length ≤ fuel →
      substFuel quals fuel cs = .ok (cs, []) := by
  intro cs fuel hnd hlen
  have := substFuel_copy quals cs [] fuel hnd (by simpa using hlen)
  rw [List.append_nil] at this
  rw [this]
  cases fuel - cs.length with
  | zero => simp [substFuel, Except.map]
  | succ g => simp [substFuel, Except.map]

/-- Scanning a well-formed placeholder dispatches on the matching qual: a
scalar cell is substituted and the qual consumed, an array value or a
missing match is a hard error. -/
theorem substFuel_placeholder (quals : List Qual) (fuel : Nat) (f : String)
    (post : List Char) (hfw : ∀ c ∈ f.data, isWordChar c = true)
    (hfne : f.data ≠ []) :
    substFuel quals (fuel + 1) ('$' :: '{' :: (f.data ++ '}' :: post)) =
      match quals.find? (fun q => q.field = f) with
      | some qual =>
        match qual.value with
        | .Cell cell =>
          (substFuel quals fuel post).map
            (fun r => ((cellToString cell).data ++ r.1, qual :: r.2))
        | .Array _ => .error .invalidQueryParameter
      | none => .error (.unmatchedParam f) := by
  have hsplit := takeWhile_word_append f.data '}' post hfw (by decide)
  simp only [substFuel]
  rw [if_pos (⟨trivial, rfl⟩ :
    True ∧ ('{' :: (f.data ++ '}' :: post)).head? = some '{')]
  simp only [List.tail_cons, hsplit.1, hsplit.2]
  rw [if_neg (by simp only [List.isEmpty_iff]; exact hfne)]


/-- A parameterized table template, decomposed into its placeholders: each
segment is a literal stretch followed by one `$\x7bfield\x7d` placeholder,
and `last` is the literal tail after the final placeholder.  `tmplData`
renders the template back into its character sequence. -/
def tmplData : List (List Char × String) → List Char → List Char
  | [], last => last
  | (lit, f) :: rest, last =>
    lit ++ '$' :: '{' :: (f.data ++ '}' :: tmplData rest last)

/-- The per-placeholder specification of template resolution, processing
placeholders left to right as `replace_all` does: each placeholder is
replaced by the textual value of the first qual whose field matches, and
that qual is consumed in order; a placeholder with no matching qual, or one
whose matching qual is array-valued, is the corresponding hard error. -/
def tmplExpected (quals : List Qual) :
    List (List Char × String) → List Char →
    Except FdwErr (List Char × List Qual)
  | [], last => .ok (last, [])
  | (lit, f) :: rest, last =>
    match quals.find? (fun q => q.field = f) with
    | some qual =>
      match qual.value with
      | .Cell cell =>
        (tmplExpected quals rest last).map
          (fun r => (lit ++ ((cellToString cell).data ++ r.1), qual :: r.2))
      | .Array _ => .error .invalidQueryParameter
    | none => .error (.unmatchedParam f)

/-- The character-level scanner agrees with the per-placeholder
specification on every well-formed template, with any number of
placeholders. -/
theorem substFuel_template (quals : List Qual) :
    ∀ (segs : List (List Char × String)) (last : List Char) (fuel : Nat),
      (∀ s ∈ segs, (∀ c ∈ s.1, c ≠ '$') ∧
        (∀ c ∈ s.2.data, isWordChar c = true) ∧ s.2.data ≠ []) →
      (∀ c ∈ last, c ≠ '$') →
      (tmplData segs last).length ≤ fuel →
      substFuel quals fuel (tmplData segs last) =
        tmplExpected quals segs last := by
  intro segs
  induction segs with
  | nil =>
    intro last fuel hsegs hlast hlen
    simp only [tmplData, tmplExpected]
    exact substFuel_tail quals last fuel hlast
      (by simpa [tmplData] using hlen)
  | cons seg rest ih =>
    intro last fuel hsegs hlast hlen
    obtain ⟨lit, f⟩ := seg
    obtain ⟨hlit, hfw, hfne⟩ := hsegs (lit, f) (by simp)
    have hrest := fun s hs => hsegs s (List.mem_cons_of_mem _ hs)
    simp only [tmplData] at hlen ⊢
    rw [substFuel_copy quals lit
      ('$' :: '{' :: (f.data ++ '}' :: tmplData rest last)) fuel hlit hlen]
    have hlen2 : lit.length +
        (f.data.length + (tmplData rest last).length + 3) ≤ fuel := by
      simp only [List.length_append, List.length_cons] at hlen
      omega
    have hg : fuel - lit.length = (fuel - lit.length - 1) + 1 := by omega
    rw [hg, substFuel_placeholder quals (fuel - lit.length - 1) f
      (tmplData rest last) hfw hfne]
    simp only [tmplExpected]
    cases hfind : quals.find? (fun q => q.field = f) with
    | none => rfl
    | some qual =>
      simp only []
      cases hv : qual.value with
      | Array arr => rfl
      | Cell cell =>
        rw [ih last (fuel - lit.length - 1) hrest hlast (by omega)]
        cases tmplExpected quals rest last with
        | error e => rfl
        | ok r => rfl

/-- Deparse on a parenthesized well-formed template, with any number of
placeholders: the table name in the SQL is the fully substituted template,
the consumed quals (in placeholder order) are appended to the parameter
list used for target-list and WHERE exclusion, and any per-placeholder
error aborts deparse with that error. -/
theorem deparse_tmpl (table0 : String) (params0 : List Qual)
    (segs : List (List Char × String)) (last : List Char)
    (quals : List Qual) (columns : List Column) (sorts : List SortKey)
    (limit : Option Limit)
    (htbl : table0.data = tmplData segs last)
    (hstart : strStartsParen table0 = true)
    (hsegs : ∀ s ∈ segs, (∀ c ∈ s.1, c ≠ '$') ∧
      (∀ c ∈ s.2.data, isWordChar c = true) ∧ s.2.data ≠ [])
    (hlast : ∀ c ∈ last, c ≠ '$') :
    ClickHouseFdw.deparse table0 params0 quals columns sorts limit =
      (tmplExpected quals segs last).map (fun r =>
        ("select " ++ chTgts (params0 ++ r.2) columns ++ " from " ++
          String.mk r.1 ++ chWhere (params0 ++ r.2) quals ++
          chOrder sorts ++ chLimit limit, params0 ++ r.2)) := by
  unfold ClickHouseFdw.deparse
  rw [if_pos hstart, htbl]
  have hs2 : substTemplateAux quals (tmplData segs last) =
      tmplExpected quals segs last :=
    substFuel_template quals segs last (tmplData segs last).length
      hsegs hlast (le_refl _)
  rw [hs2]
  cases tmplExpected quals segs last with
  | error e => rfl
  | ok r =>
    obtain ⟨out, ps⟩ := r
    rfl

/-- A placeholder field that matches no qual, or whose first matching qual
is array-valued, makes the template resolution fail (with some hard error),
regardless of how many other placeholders the template has. -/
theorem tmplExpected_error (quals : List Qual) :
    ∀ (segs : List (List Char × String)) (last : List Char) (f : String),
      f ∈ segs.map (fun s => s.2) →
      (quals.find? (fun q => q.field = f) = none ∨
        ∃ qual arr, quals.find? (fun q => q.field = f) = some qual ∧
          qual.value = .Array arr) →
      ∃ e, tmplExpected quals segs last = .error e := by
  intro segs
  induction segs with
  | nil =>
    intro last f hf hbad
    simp at hf
  | cons seg rest ih =>
    intro last f hf hbad
    obtain ⟨lit, g⟩ := seg
    simp only [tmplExpected]
    cases hfind : quals.find? (fun q => q.field = g) with
    | none => exact ⟨_, rfl⟩
    | some qual =>
      simp only []
      cases hv : qual.value with
      | Array arr => exact ⟨_, rfl⟩
      | Cell cell =>
        have hfr : f ∈ rest.map (fun s => s.2) := by
          simp only [List.map_cons, List.mem_cons] at hf
          rcases hf with hfg | hmem
          · exfalso
            subst hfg
            rcases hbad with hnone | ⟨qual2, arr, hq2, hq2v⟩
            · rw [hfind] at hnone
              exact Option.noConfusion hnone
            · rw [hfind] at hq2
              cases Option.some.injEq .. ▸ hq2
              rw [hv] at hq2v
              exact Value.noConfusion hq2v
          · exact hmem
        obtain ⟨e, he⟩ := ih last f hfr hbad
        exact ⟨e, by rw [he]; rfl⟩

/-- C7: when the ClickHouse table option is a parenthesized template with any
number of `$\x7bfield\x7d` placeholders, `deparse` substitutes each
placeholder (left to right) with the textual value of the first matching
qual whose value is a scalar cell, consuming that qual; every so-consumed
field is excluded from the select target-column list and from the WHERE
conjunction (no surviving column or predicate carries a consumed field
name); and a placeholder with no matching qual, or one whose matching qual
is array-valued, makes the template resolution fail, so `deparse` — and
hence `begin_scan`, whose outcome is then independent of the remote — fails
with that error before any query is sent. -/
theorem C7_template_parameters :
    (∀ (table0 : String) (params0 : List Qual)
        (segs : List (List Char × String)) (last : List Char)
        (quals : List Qual) (columns : List Column) (sorts : List SortKey)
        (limit : Option Limit),
      table0.data = tmplData segs last →
      strStartsParen table0 = true →
      (∀ s ∈ segs, (∀ c ∈ s.1, c ≠ '$') ∧
        (∀ c ∈ s.2.data, isWordChar c = true) ∧ s.2.data ≠ []) →
      (∀ c ∈ last, c ≠ '$') →
      ClickHouseFdw.deparse table0 params0 quals columns sorts limit =
        (tmplExpected quals segs last).map (fun r =>
          ("select " ++ chTgts (params0 ++ r.2) columns ++ " from " ++
            String.mk r.1 ++ chWhere (params0 ++ r.2) quals ++
            chOrder sorts ++ chLimit limit, params0 ++ r.2))) ∧
    (∀ (params : List Qual) (columns : List Column) (quals : List Qual)
        (p : Qual), p ∈ params →
      (∀ c ∈ columns.filter
          (fun c => ¬ params.any (fun q => q.field = c.name)),
        c.name ≠ p.field) ∧
      (∀ q ∈ quals.filter
          (fun q => ¬ params.any (fun q2 => q2.field = q.field)),
        q.field ≠ p.field)) ∧
    (∀ (quals : List Qual) (segs : List (List Char × String))
        (last : List Char) (f : String),
      f ∈ segs.map (fun s => s.2) →
      (quals.find? (fun q => q.field = f) = none ∨
        ∃ qual arr, quals.find? (fun q => q.field = f) = some qual ∧
          qual.value = .Array arr) →
      ∃ e, tmplExpected quals segs last = .error e) ∧
    (∀ (table0 : String) (segs : List (List Char × String))
        (last : List Char) (quals : List Qual) (columns : List Column)
        (sorts : List SortKey) (limit : Option Limit) (e : FdwErr),
      table0.data = tmplData segs last →
      strStartsParen table0 = true →
      (∀ s ∈ segs, (∀ c ∈ s.1, c ≠ '$') ∧
        (∀ c ∈ s.2.data, isWordChar c = true) ∧ s.2.data ≠ []) →
      (∀ c ∈ last, c ≠ '$') →
      tmplExpected quals segs last = .error e →
      (∀ params0,
        ClickHouseFdw.deparse table0 params0 quals columns sorts limit =
          .error e) ∧
      (∀ (remote remote2 : String → Option ChBlock) (self0 : ChScanState)
          (options : List (String × String)),
        requireOption "table" options = some table0 →
        ClickHouseFdw.begin_scan true remote self0 quals columns sorts
            limit options = .error e ∧
        ClickHouseFdw.begin_scan true remote self0 quals columns sorts
            limit options =
          ClickHouseFdw.begin_scan true remote2 self0 quals columns sorts
            limit options)) := by
  refine ⟨?_, ?_, ?_, ?_⟩
  · intro table0 params0 segs last quals columns sorts limit
      htbl hstart hsegs hlast
    exact deparse_tmpl table0 params0 segs last quals columns sorts limit
      htbl hstart hsegs hlast
  · intro params columns quals p hp
    constructor
    · intro c hc heq
      have h2 := (List.mem_filter.mp hc).2
      simp only [decide_eq_true_eq, List.any_eq_true] at h2
      exact h2 ⟨p, hp, heq.symm⟩
    · intro q hq heq
      have h2 := (List.mem_filter.mp hq).2
      simp only [decide_eq_true_eq, List.any_eq_true] at h2
      exact h2 ⟨p, hp, heq.symm⟩
  · intro quals segs last f hf hbad
    exact tmplExpected_error quals segs last f hf hbad
  · intro table0 segs last quals columns sorts limit e
      htbl hstart hsegs hlast herr
    have hdep : ∀ params0,
        ClickHouseFdw.deparse table0 params0 quals columns sorts limit =
          .error e := by
      intro params0
      rw [deparse_tmpl table0 params0 segs last quals columns sorts limit
        htbl hstart hsegs hlast, herr]
      rfl
    have hbs : ∀ (remote : String → Option ChBlock) (self0 : ChScanState)
        (options : List (String × String)),
        requireOption "table" options = some table0 →
        ClickHouseFdw.begin_scan true remote self0 quals columns sorts
            limit options = .error e := by
      intro remote self0 options hopt
      simp only [ClickHouseFdw.begin_scan, hopt]
      rw [hdep]
      rfl
    exact ⟨hdep, fun remote remote2 self0 options hopt =>
      ⟨hbs remote self0 options hopt,
        (hbs remote self0 options hopt).trans
          (hbs remote2 self0 options hopt).symm⟩⟩

/-- Witness qual consumed by the first placeholder. -/
def c7qual : Qual := ⟨"x", "=", .Cell (.I64 5), false⟩

/-- Witness qual consumed by the second placeholder. -/
def c7qualY : Qual := ⟨"y", "=", .Cell (.String "a"), false⟩

/-- Segment decomposition of the two-placeholder witness template. -/
def c7segs : List (List Char × String) := [(['('], "x"), ([','], "y")]

/-- Target columns of the witness scan. -/
def c7cols : List Column := [⟨"x"⟩, ⟨"y"⟩, ⟨"z"⟩]

/-- C7 witness: the characterization instantiated at the two-placeholder
template `($\x7bx\x7d,$\x7by\x7d)` with quals `x = 5` and `y = a`; both
placeholders are substituted, both consumed fields disappear from the
select list and the WHERE clause, and the resulting SQL is
`select z from (5,a)` carrying both consumed quals as parameters. -/
theorem C7_template_parameters_witness :
    (ClickHouseFdw.deparse "($\x7bx\x7d,$\x7by\x7d)" [] [c7qual, c7qualY]
        c7cols [] none =
      (tmplExpected [c7qual, c7qualY] c7segs [')']).map (fun r =>
        ("select " ++ chTgts ([] ++ r.2) c7cols ++ " from " ++
          String.mk r.1 ++ chWhere ([] ++ r.2) [c7qual, c7qualY] ++
          chOrder [] ++ chLimit none, [] ++ r.2))) ∧
    ClickHouseFdw.deparse "($\x7bx\x7d,$\x7by\x7d)" [] [c7qual, c7qualY]
        c7cols [] none = .ok ("select z from (5,a)", [c7qual, c7qualY]) :=
  ⟨C7_template_parameters.1 "($\x7bx\x7d,$\x7by\x7d)" [] c7segs [')']
      [c7qual, c7qualY] c7cols [] none rfl rfl (by decide) (by decide),
    rfl⟩
